import Mathlib

/-!
Verification of the autocue core: the XmlProcessor class (XML adapter and
cue placement engine).  The engine is embedded faithfully from the source;
JavaScript value semantics (falsy strings, NaN propagation through
parseFloat/parseInt, object key update order) are made explicit.  Numeric
attribute values are modelled as exact rationals; every value appearing in
the claims is exactly representable, so no floating-point rounding is lost.
-/

namespace Autocue

/-- Attribute object of one XML node: ordered list of (name, value) pairs,
mirroring a JavaScript object with string values and insertion order. -/
abbrev Attrs := List (String × String)

/-- Read attribute `k` (JavaScript property access: `undefined` becomes `none`). -/
def jsGet (o : Attrs) (k : String) : Option String :=
  (o.find? (fun p => p.1 == k)).map (·.2)

/-- Write attribute `k`: an existing key keeps its position, a new key is
appended, as JavaScript object assignment does. -/
def jsSet (o : Attrs) (k v : String) : Attrs :=
  if (o.find? (fun p => p.1 == k)).isSome then
    o.map (fun p => if p.1 == k then (k, v) else p)
  else o ++ [(k, v)]

/-- Truthiness of a string property: `undefined` and the empty string are falsy. -/
def jsTruthy : Option String → Bool
  | none => false
  | some s => s ≠ ""

def isWsChar (c : Char) : Bool :=
  c = ' ' || c = '\n' || c = '\t' || c = '\r'

/-! ### Exact rational numbers

Numeric attribute values and the engine's time arithmetic are modelled as
exact fractions.  The representation is an integer numerator over a
positive natural denominator, not reduced: every operation is plain integer
arithmetic, so terms evaluate by kernel reduction.  All comparisons are
value comparisons by cross-multiplication. -/

structure Frac where
  num : Int
  den : Nat
  deriving DecidableEq, Repr

namespace Frac

def ofNat (n : Nat) : Frac := ⟨n, 1⟩

instance (n : Nat) : OfNat Frac n := ⟨⟨n, 1⟩⟩

def add (a b : Frac) : Frac := ⟨a.num * b.den + b.num * a.den, a.den * b.den⟩

def sub (a b : Frac) : Frac := ⟨a.num * b.den - b.num * a.den, a.den * b.den⟩

def mul (a b : Frac) : Frac := ⟨a.num * b.num, a.den * b.den⟩

def neg (a : Frac) : Frac := ⟨-a.num, a.den⟩

/-- Division; a zero divisor yields 0 (the engine divides only by a tempo
already checked to be positive). -/
def div (a b : Frac) : Frac :=
  if b.num = 0 then ⟨0, 1⟩
  else if b.num < 0 then ⟨-(a.num * b.den), a.den * b.num.natAbs⟩
  else ⟨a.num * b.den, a.den * b.num.natAbs⟩

instance : Add Frac := ⟨add⟩
instance : Sub Frac := ⟨sub⟩
instance : Mul Frac := ⟨mul⟩
instance : Neg Frac := ⟨neg⟩
instance : Div Frac := ⟨div⟩

/-- Value comparison by cross-multiplication (denominators are positive). -/
def leB (a b : Frac) : Bool := a.num * b.den ≤ b.num * a.den

def ltB (a b : Frac) : Bool := a.num * b.den < b.num * a.den

def fabs (a : Frac) : Frac := ⟨(a.num.natAbs : Int), a.den⟩

/-- Clamp at zero, the `Math.max(0, x)` of the source. -/
def max0 (a : Frac) : Frac := if a.num < 0 then ⟨0, 1⟩ else a

/-- Floor to an integer (denominator positive). -/
def floor (a : Frac) : Int := Int.fdiv a.num a.den

end Frac

def isDigitChar (c : Char) : Bool := '0' ≤ c && c ≤ '9'

def digitsToNat (cs : List Char) : Nat :=
  cs.foldl (fun a c => 10 * a + (c.toNat - 48)) 0

/-- JavaScript parseFloat on a string: skip leading whitespace, optional sign,
integer digits, optional fraction; `none` models NaN (no digits at all).
Trailing garbage is ignored, as parseFloat ignores it. -/
def parseFloat? (s : String) : Option Frac :=
  let cs := s.data.dropWhile isWsChar
  let (neg, cs) : Bool × List Char :=
    match cs with
    | '-' :: r => (true, r)
    | '+' :: r => (false, r)
    | r => (false, r)
  let intPart := cs.takeWhile isDigitChar
  let cs2 := cs.dropWhile isDigitChar
  let fracPart : List Char :=
    match cs2 with
    | '.' :: r => r.takeWhile isDigitChar
    | _ => []
  if intPart.isEmpty && fracPart.isEmpty then none
  else
    let scale : Nat := 10 ^ fracPart.length
    let q : Frac := ⟨digitsToNat intPart * scale + digitsToNat fracPart, scale⟩
    some (if neg then -q else q)

/-- JavaScript parseInt (base 10) on a string: `none` models NaN. -/
def parseInt? (s : String) : Option Int :=
  let cs := s.data.dropWhile isWsChar
  let (neg, cs) : Bool × List Char :=
    match cs with
    | '-' :: r => (true, r)
    | '+' :: r => (false, r)
    | r => (false, r)
  let digits := cs.takeWhile isDigitChar
  if digits.isEmpty then none
  else
    let n : Int := (digitsToNat digits : Int)
    some (if neg then -n else n)

/-- JavaScript `parseFloat(x || 0)`: a missing or empty attribute is coerced
to the number 0 before parsing. -/
def jsParseFloatOrZero (o : Option String) : Option Frac :=
  match o with
  | none => some 0
  | some s => if s = "" then some 0 else parseFloat? s

/-- Render `n / 1000` with exactly three decimals (the decimal expansion of a
nonnegative integer count of thousandths). -/
def thousandthsToString (n : Nat) : String :=
  let frac := n % 1000
  let pad :=
    if frac < 10 then "00"
    else if frac < 100 then "0"
    else ""
  toString (n / 1000) ++ "." ++ pad ++ toString frac

/-- JavaScript `x.toFixed(3)`: round to the nearest thousandth, ties toward
positive infinity; `NaN.toFixed(3)` is the string "NaN". -/
def jsToFixed3 : Option Frac → String
  | none => "NaN"
  | some q =>
    let n : Int := Frac.floor (q * ⟨1000, 1⟩ + ⟨1, 2⟩)
    if n < 0 then "-" ++ thousandthsToString (-n).toNat
    else thousandthsToString n.toNat

/-- Empty or missing multi-valued tag: the parser only materializes the key
when at least one child element exists. -/
def optList {α : Type} (o : Option (List α)) : List α := o.getD []

/-! ## Data model

The in-memory tree produced by the adapter for a collection document, in the
shape the engine reads and mutates: DJ_PLAYLISTS containing a COLLECTION of
TRACK entries (each with optional TEMPO and POSITION_MARK sequences) and a
PLAYLISTS section of NODE entries.  Multi-valued tags (TRACK, POSITION_MARK,
TEMPO, NODE) are forced to lists; a key that is absent in the JavaScript
object is `none`. -/

/-- One TRACK entry of the collection. -/
structure Track where
  attrs : Attrs
  tempos : Option (List Attrs)
  marks : Option (List Attrs)
  deriving DecidableEq, Repr

/-- One NODE of the PLAYLISTS section; `undef` models the JavaScript
`undefined` that arises when a NODE-less PLAYLISTS object is wrapped into a
one-element array. -/
inductive PlNode where
  | undef
  | node (attrs : Attrs) (refs : Option (List Attrs))
  deriving DecidableEq, Repr

structure Playlists where
  attrs : Attrs
  node : Option (List PlNode)
  deriving DecidableEq, Repr

structure Collection where
  attrs : Attrs
  tracks : Option (List Track)
  deriving DecidableEq, Repr

structure DjPlaylists where
  attrs : Attrs
  collection : Option Collection
  playlists : Option Playlists
  deriving DecidableEq, Repr

/-- A parsed document: declaration flag plus the DJ_PLAYLISTS root (absent
when the document has a different root). -/
structure ParsedData where
  decl : Bool
  dj : Option DjPlaylists
  deriving DecidableEq, Repr

/-- Truthiness of the parsed DJ_PLAYLISTS value: a childless, attribute-less
element parses to the empty string in JavaScript, which is falsy. -/
def djFalsy : Option DjPlaylists → Bool
  | none => true
  | some d => d.attrs.isEmpty && d.collection.isNone && d.playlists.isNone

/-- Truthiness of the parsed COLLECTION value (see `djFalsy`). -/
def collFalsy : Option Collection → Bool
  | none => true
  | some c => c.attrs.isEmpty && c.tracks.isNone

/-- Truthiness of the parsed PLAYLISTS value (see `djFalsy`). -/
def plFalsy : Option Playlists → Bool
  | none => true
  | some p => p.attrs.isEmpty && p.node.isNone

/-- Chained access `data.DJ_PLAYLISTS?.COLLECTION?.TRACK`. -/
def getTracksOpt (d : ParsedData) : Option (List Track) := do
  let dj ← d.dj
  let coll ← dj.collection
  coll.tracks

/-- Placement configuration, as assembled by the UI and consumed by the
engine: one cue kind applies to both directions. -/
structure Config where
  beforeReference : String
  afterReference : String
  specificBeforeCue : String
  specificAfterCue : String
  beforeCount : Nat
  afterCount : Nat
  beforeInterval : Frac
  afterInterval : Frac
  cueType : String

/-! ## Engine -/

/-- Sort key of a position mark: `parseFloat` of its Start attribute
(`none` models NaN). -/
def startKey (m : Attrs) : Option Frac := (jsGet m "@_Start").bind parseFloat?

/-- Comparator `parseFloat(a.Start) - parseFloat(b.Start) < 0`; a NaN
comparator result counts as not-less (sort treats it as equal). -/
def startLt (a b : Attrs) : Bool :=
  match startKey a, startKey b with
  | some p, some q => Frac.ltB p q
  | _, _ => false

def insertMark (x : Attrs) : List Attrs → List Attrs
  | [] => [x]
  | y :: ys => if startLt y x then y :: insertMark x ys else x :: y :: ys

/-- Stable ascending sort by start time, the behaviour of
`sort((a, b) => parseFloat(a["@_Start"]) - parseFloat(b["@_Start"]))`. -/
def sortByStart (l : List Attrs) : List Attrs := l.foldr insertMark []

/-- Hot-cue test used throughout the engine: Type attribute is exactly "0"
and the Num attribute parses to a nonnegative integer. -/
def isHotCue (m : Attrs) : Bool :=
  jsGet m "@_Type" == some "0" &&
    ((jsGet m "@_Num").bind parseInt?).elim false (fun n => 0 ≤ n)

/-- Reference-point resolution (`findReferencePoint`): sort the existing hot
cues ascending by start and pick per strategy; intro and outro alias the
first and last hot cue. -/
def findReferencePoint (positions : List Attrs) (refType specificCue : String) :
    Option Attrs :=
  if positions.isEmpty then none
  else
    let specificCueNum : Int :=
      if specificCue ≠ "" then
        (match specificCue.data with
         | c :: _ => (c.toNat : Int) - 65
         | [] => -1)
      else -1
    let hotCues := positions.filter isHotCue
    if hotCues.isEmpty then none
    else
      let sorted := sortByStart hotCues
      match refType with
      | "firstHotCue" => sorted.head?
      | "lastHotCue" => sorted.getLast?
      | "specificHotCue" =>
        sorted.find? (fun cue => (jsGet cue "@_Num").bind parseInt? == some specificCueNum)
      | "intro" => sorted.head?
      | "outro" => sorted.getLast?
      | _ => none

/-- Collision test (`isTooCloseToExistingCues`): some existing mark lies
within 0.5 s of the candidate; NaN on either side never triggers it. -/
def isTooCloseToExistingCues (positions : List Attrs) (time : Option Frac) : Bool :=
  positions.any fun pos =>
    match startKey pos, time with
    | some p, some t => Frac.ltB (Frac.fabs (p - t)) ⟨1, 2⟩
    | _, _ => false

/-- Lowest unused hot-cue slot 0..7 scanning the track's current marks;
-1 when all eight are taken (`getNextAvailableHotCueNumber`). -/
def getNextAvailableHotCueNumber (positions : List Attrs) : Int :=
  let usedNumbers : List Int :=
    (positions.filter isHotCue).filterMap (fun pos => (jsGet pos "@_Num").bind parseInt?)
  match (List.range 8).find? (fun i => ¬ usedNumbers.contains (Int.ofNat i)) with
  | some i => Int.ofNat i
  | none => -1

/-- Fixed hot-cue palette, slot 0 through 7. -/
def hotCueColors : List (Nat × Nat × Nat) :=
  [(255, 55, 111), (69, 172, 219), (125, 193, 61), (237, 135, 0),
   (189, 94, 235), (32, 218, 181), (255, 204, 0), (226, 82, 153)]

/-- Attach the palette colour when the assigned slot is a hot-cue slot. -/
def addColorAttrs (cueNum : String) (base : Attrs) : Attrs :=
  if cueNum ≠ "-1" then
    match parseInt? cueNum with
    | some n =>
      if 0 ≤ n ∧ n < (hotCueColors.length : Int) then
        match hotCueColors.get? n.toNat with
        | some (r, g, b) =>
          base ++ [("@_Red", toString r), ("@_Green", toString g), ("@_Blue", toString b)]
        | none => base
      else base
    | none => base
  else base

/-- Generate cues before the reference point (`generateCuesBeforeRef`).
Candidate i sits i * interval bars before the reference, clamped at 0;
candidates below 0.025 s or within 0.5 s of a mark already on the track are
dropped.  The slot scan and the collision test both read only the marks the
track had when generation started. -/
def generateCuesBeforeRef (positions : List Attrs) (refPoint : Attrs)
    (count : Nat) (interval barDuration : Frac) (cueType : String) : List Attrs :=
  let refTime : Option Frac := startKey refPoint
  (List.range count).filterMap fun k =>
    let i : Nat := k + 1
    let time : Option Frac := refTime.map fun r =>
      Frac.max0 (r - Frac.ofNat i * interval * barDuration)
    if (time.elim false (fun t => Frac.ltB t ⟨25, 1000⟩)) then none
    else if isTooCloseToExistingCues positions time then none
    else
      let cueNum : String :=
        if cueType = "memory" then "-1"
        else toString (getNextAvailableHotCueNumber positions)
      let base : Attrs :=
        [("@_Name", "Auto " ++ toString (count - (k + 1) + 1)),
         ("@_Type", "0"),
         ("@_Start", jsToFixed3 time),
         ("@_Num", cueNum)]
      some (addColorAttrs cueNum base)

/-- Generate cues after the reference point (`generateCuesAfterRef`);
candidates at or beyond the track duration are dropped. -/
def generateCuesAfterRef (positions : List Attrs) (refPoint : Attrs)
    (count : Nat) (interval barDuration : Frac) (cueType : String)
    (totalTime : Frac) : List Attrs :=
  let refTime : Option Frac := startKey refPoint
  (List.range count).filterMap fun k =>
    let i : Nat := k + 1
    let time : Option Frac := refTime.map fun r =>
      r + Frac.ofNat i * interval * barDuration
    if (time.elim false (fun t => Frac.leB totalTime t)) then none
    else if isTooCloseToExistingCues positions time then none
    else
      let cueNum : String :=
        if cueType = "memory" then "-1"
        else toString (getNextAvailableHotCueNumber positions)
      let base : Attrs :=
        [("@_Name", "Auto " ++ toString (k + 1)),
         ("@_Type", "0"),
         ("@_Start", jsToFixed3 time),
         ("@_Num", cueNum)]
      some (addColorAttrs cueNum base)

/-- Resolved duration: `parseFloat(track["@_TotalTime"] || 0)`. -/
def resolveTotalTime (t : Track) : Option Frac :=
  jsParseFloatOrZero (jsGet t.attrs "@_TotalTime")

/-- Resolved tempo: Bpm of the first TEMPO marker, falling back to the
AverageBpm attribute when that is absent or nonpositive (a NaN first tempo
is kept, since `NaN <= 0` is false). -/
def resolveBpm (t : Track) : Option Frac :=
  let bpm0 : Option Frac :=
    match t.tempos with
    | some (t0 :: _) => jsParseFloatOrZero (jsGet t0 "@_Bpm")
    | _ => some 0
  if bpm0.elim false (fun q => Frac.leB q 0) then
    jsParseFloatOrZero (jsGet t.attrs "@_AverageBpm")
  else bpm0

/-- Invalid tempo or duration: `x <= 0 || isNaN(x)`. -/
def jsInvalidPos : Option Frac → Bool
  | none => true
  | some q => Frac.leB q 0

/-- Per-track processing (`processSingleTrack`): materialize the mark list,
validate tempo and duration, resolve both reference points, generate the
configured cues, append them and re-sort.  Skips return the track with only
the mark list materialized. -/
def processSingleTrack (cfg : Config) (track : Track) : Track :=
  let marks0 : List Attrs := optList track.marks
  let track0 : Track := { track with marks := some marks0 }
  let totalTime := resolveTotalTime track
  let bpm := resolveBpm track
  if jsInvalidPos bpm || jsInvalidPos totalTime then track0
  else
    let beforeRef := findReferencePoint marks0 cfg.beforeReference cfg.specificBeforeCue
    let afterRef := findReferencePoint marks0 cfg.afterReference cfg.specificAfterCue
    match beforeRef, afterRef with
    | some bRef, some aRef =>
      let bpmQ := bpm.getD 0
      let barDuration : Frac := (60 : Frac) / bpmQ * 4
      let cuesBefore :=
        if 0 < cfg.beforeCount then
          generateCuesBeforeRef marks0 bRef cfg.beforeCount cfg.beforeInterval
            barDuration cfg.cueType
        else []
      let cuesAfter :=
        if 0 < cfg.afterCount then
          generateCuesAfterRef marks0 aRef cfg.afterCount cfg.afterInterval
            barDuration cfg.cueType (totalTime.getD 0)
        else []
      { track with marks := some (sortByStart (marks0 ++ (cuesBefore ++ cuesAfter))) }
    | _, _ => track0

/-- Membership test `selectedTrackIds.includes(track["@_TrackID"])`. -/
def isSelected (ids : List String) (t : Track) : Bool :=
  match jsGet t.attrs "@_TrackID" with
  | some v => ids.contains v
  | none => false

/-- The synthetic playlist node appended by the engine. -/
def autocueNode (ids : List String) : PlNode :=
  PlNode.node
    [("@_Name", "Autocue Processed Tracks"), ("@_Type", "1"), ("@_KeyType", "0")]
    (some (ids.map fun id => [("@_Key", id)]))

/-- Existing content of the NODE array before the push: a falsy PLAYLISTS is
recreated with an empty array; a truthy PLAYLISTS without a NODE key has its
undefined NODE wrapped into a one-element array. -/
def baseNodes (pl : Option Playlists) : List PlNode :=
  if plFalsy pl then []
  else
    match pl with
    | some p => match p.node with
      | some l => l
      | none => [PlNode.undef]
    | none => []

/-- Append the synthetic playlist (`createPlaylistWithProcessedTracks`). -/
def addPlaylist (pl : Option Playlists) (ids : List String) : Playlists :=
  if plFalsy pl then { attrs := [], node := some [autocueNode ids] }
  else
    match pl with
    | some p => { p with node := some (baseNodes pl ++ [autocueNode ids]) }
    | none => { attrs := [], node := some [autocueNode ids] }

/-- Normalization of one mark at build time
(`completePositionMarkAttributes`): default the Name, force Type to "0",
reformat a truthy Start through parseFloat and toFixed(3). -/
def completePositionMarkAttributes (m : Attrs) : Attrs :=
  let m1 := if ¬ jsTruthy (jsGet m "@_Name") then jsSet m "@_Name" "" else m
  let m2 := jsSet m1 "@_Type" "0"
  if jsTruthy (jsGet m2 "@_Start") then
    jsSet m2 "@_Start" (jsToFixed3 (parseFloat? ((jsGet m2 "@_Start").getD "")))
  else m2

/-- Build-time mark pass for one track: complete every mark, then sort. -/
def completeTrackMarks (t : Track) : Track :=
  match t.marks with
  | none => t
  | some l => { t with marks := some (sortByStart (l.map completePositionMarkAttributes)) }

/-- Build-time pass over every track of the collection
(`processAllPositionMarks`); absent chain leaves the tree untouched. -/
def processAllPositionMarks (d : ParsedData) : ParsedData :=
  match d.dj with
  | some dj =>
    match dj.collection with
    | some coll =>
      match coll.tracks with
      | some ts =>
        let coll2 : Collection := { coll with tracks := some (ts.map completeTrackMarks) }
        let dj2 : DjPlaylists := { dj with collection := some coll2 }
        { d with dj := some dj2 }
      | none => d
    | none => d
  | none => d

/-! ## Serialization

Modelled from the spec: the generic tree-to-text builder (an external XML
library in the source) with the format conventions the source's finishing
pass `formatXmlForRekordbox` enforces folded in: two-space indentation, one
element per line, POSITION_MARK and TEMPO self-closing, empty TRACK forced
to a paired open/close form, and a fixed XML declaration first. -/

/-- A list-valued key is materialized only when nonempty. -/
def listOpt {α : Type} : List α → Option (List α)
  | [] => none
  | l => some l

/-- XML attribute name of a JavaScript attribute key: the `@_` prefix the
parser added is stripped again on write. -/
def attrNameChars (k : String) : List Char :=
  match k.data with
  | '@' :: '_' :: r => r
  | r => r

def renderAttrsC (attrs : Attrs) : List Char :=
  attrs.foldr
    (fun kv acc => ' ' :: (attrNameChars kv.1 ++ '=' :: '"' :: (kv.2.data ++ '"' :: acc)))
    []

def indentC (n : Nat) : List Char := List.replicate (2 * n) ' '

/-- Render each item on its own indented line. -/
def renderLinesC {α : Type} (coreR : α → List Char) (ind : Nat) (l : List α) :
    List Char :=
  (l.map (fun a => indentC ind ++ coreR a ++ ['\n'])).flatten

/-- Modelled from the spec: a self-closing leaf element. -/
def coreLeafC (tag : String) (attrs : Attrs) : List Char :=
  '<' :: (tag.data ++ renderAttrsC attrs ++ ['/', '>'])

/-- Modelled from the spec: an empty element forced to paired form (the
TRACK convention). -/
def corePairedEmptyC (tag : String) (attrs : Attrs) : List Char :=
  '<' :: (tag.data ++ renderAttrsC attrs ++
    '>' :: '<' :: '/' :: (tag.data ++ ['>']))

def coreTrackC (ind : Nat) (t : Track) : List Char :=
  let tempos := optList t.tempos
  let marks := optList t.marks
  if tempos.isEmpty && marks.isEmpty then
    corePairedEmptyC "TRACK" t.attrs
  else
    '<' :: ("TRACK".data ++ renderAttrsC t.attrs ++ ['>', '\n']) ++
    renderLinesC (coreLeafC "TEMPO") (ind + 1) tempos ++
    renderLinesC (coreLeafC "POSITION_MARK") (ind + 1) marks ++
    indentC ind ++ "</TRACK>".data

def coreCollectionC (ind : Nat) (c : Collection) : List Char :=
  let tracks := optList c.tracks
  if tracks.isEmpty then coreLeafC "COLLECTION" c.attrs
  else
    '<' :: ("COLLECTION".data ++ renderAttrsC c.attrs ++ ['>', '\n']) ++
    renderLinesC (coreTrackC (ind + 1)) (ind + 1) tracks ++
    indentC ind ++ "</COLLECTION>".data

def coreNodeC : PlNode → List Char
  | PlNode.undef => []
  | PlNode.node attrs refs =>
    let rl := optList refs
    if rl.isEmpty then coreLeafC "NODE" attrs
    else
      '<' :: ("NODE".data ++ renderAttrsC attrs ++ ['>', '\n']) ++
      renderLinesC (corePairedEmptyC "TRACK") 3 rl ++
      indentC 2 ++ "</NODE>".data

def corePlaylistsC (p : Playlists) : List Char :=
  let nodes := optList p.node
  if nodes.isEmpty then coreLeafC "PLAYLISTS" p.attrs
  else
    '<' :: ("PLAYLISTS".data ++ renderAttrsC p.attrs ++ ['>', '\n']) ++
    renderLinesC coreNodeC 2 nodes ++
    indentC 1 ++ "</PLAYLISTS>".data

def renderDjC (dj : DjPlaylists) : List Char :=
  let children : List Char :=
    (match dj.collection with
     | some c => indentC 1 ++ coreCollectionC 1 c ++ ['\n']
     | none => []) ++
    (match dj.playlists with
     | some p => indentC 1 ++ corePlaylistsC p ++ ['\n']
     | none => [])
  if children.isEmpty then coreLeafC "DJ_PLAYLISTS" dj.attrs ++ ['\n']
  else
    '<' :: ("DJ_PLAYLISTS".data ++ renderAttrsC dj.attrs ++ ['>', '\n']) ++
    children ++ "</DJ_PLAYLISTS>".data ++ ['\n']

def renderDocC (d : ParsedData) : List Char :=
  "<?xml version=\"1.0\" encoding=\"UTF-8\"?>\n".data ++
    (match d.dj with
     | some dj => renderDjC dj
     | none => [])

/-- The build step (`buildXml`): run the mark pass over the whole tree, then
serialize.  The returned pair exposes the serialized text and the tree as it
is left after the call (the source mutates the tree it was given). -/
def buildXml (d : ParsedData) : String × ParsedData :=
  let d2 := processAllPositionMarks d
  ((renderDocC d2).asString, d2)

/-! ## Parsing

Modelled from the spec: the text-to-tree direction of the adapter (an
external XML library in the source), restricted to the collection document
shape the engine consumes; multi-valued tags always materialize as ordered
sequences, a malformed or out-of-shape document yields `none` (ParseError).
Attribute values are taken verbatim between double quotes. -/

def skipWs : List Char → List Char
  | [] => []
  | c :: cs => if isWsChar c then skipWs cs else c :: cs

/-- Consume an exact literal prefix. -/
def lit : List Char → List Char → Option (List Char)
  | [], s => some s
  | l :: ls, c :: cs => if c = l then lit ls cs else none
  | _ :: _, [] => none

def isNameChar (c : Char) : Bool := c.isAlphanum || c = '_'

/-- One attribute: `name="value"`, with optional leading whitespace. -/
def parseAttrItem (cs0 : List Char) : Option ((String × String) × List Char) :=
  let cs := skipWs cs0
  let nm := cs.takeWhile isNameChar
  let r1 := cs.dropWhile isNameChar
  if nm.isEmpty then none
  else
    match lit ['=', '"'] r1 with
    | none => none
    | some r2 =>
      let v := r2.takeWhile (fun c => c ≠ '"')
      let r3 := r2.dropWhile (fun c => c ≠ '"')
      match r3 with
      | '"' :: r4 => some ((('@' :: '_' :: nm).asString, v.asString), r4)
      | _ => none

/-- Repeat a parser until it fails, with a fuel bound on the number of
items; it never reports failure itself. -/
def parseMany {α : Type} (p : List Char → Option (α × List Char)) :
    Nat → List Char → Option (List α × List Char)
  | 0, s => some ([], s)
  | fuel + 1, s =>
    match p s with
    | none => some ([], s)
    | some (a, r) =>
      match parseMany p fuel r with
      | some (as, r2) => some (a :: as, r2)
      | none => none

/-- Leaf element of the given tag: attributes then either a self-closing
slash or an immediately closed pair. -/
def parseLeaf (tag : String) (fuel : Nat) (cs : List Char) :
    Option (Attrs × List Char) :=
  match lit ('<' :: tag.data) cs with
  | none => none
  | some r1 =>
    match parseMany parseAttrItem fuel r1 with
    | some (attrs, r2) =>
      let r2 := skipWs r2
      match lit ['/', '>'] r2 with
      | some r3 => some (attrs, r3)
      | none =>
        match lit ['>'] r2 with
        | some r3 =>
          match lit ('<' :: '/' :: (tag.data ++ ['>'])) (skipWs r3) with
          | some r4 => some (attrs, r4)
          | none => none
        | none => none
    | none => none

/-- A full TRACK entry: attributes, then TEMPO leaves followed by
POSITION_MARK leaves. -/
def parseTrackEntry (fuel : Nat) (cs : List Char) : Option (Track × List Char) :=
  match lit "<TRACK".data cs with
  | none => none
  | some r1 =>
    match parseMany parseAttrItem fuel r1 with
    | some (attrs, r2) =>
      let r2 := skipWs r2
      match lit ['/', '>'] r2 with
      | some r3 => some (⟨attrs, none, none⟩, r3)
      | none =>
        match lit ['>'] r2 with
        | some r3 =>
          match parseMany (fun s => parseLeaf "TEMPO" fuel (skipWs s)) fuel r3 with
          | some (tempos, r4) =>
            match parseMany (fun s => parseLeaf "POSITION_MARK" fuel (skipWs s)) fuel r4 with
            | some (marks, r5) =>
              match lit "</TRACK>".data (skipWs r5) with
              | some r6 => some (⟨attrs, listOpt tempos, listOpt marks⟩, r6)
              | none => none
            | none => none
          | none => none
        | none => none
    | none => none

/-- A NODE of the PLAYLISTS section with its TRACK references. -/
def parseNodeEntry (fuel : Nat) (cs : List Char) : Option (PlNode × List Char) :=
  match lit "<NODE".data cs with
  | none => none
  | some r1 =>
    match parseMany parseAttrItem fuel r1 with
    | some (attrs, r2) =>
      let r2 := skipWs r2
      match lit ['/', '>'] r2 with
      | some r3 => some (PlNode.node attrs none, r3)
      | none =>
        match lit ['>'] r2 with
        | some r3 =>
          match parseMany (fun s => parseLeaf "TRACK" fuel (skipWs s)) fuel r3 with
          | some (refs, r4) =>
            match lit "</NODE>".data (skipWs r4) with
            | some r5 => some (PlNode.node attrs (listOpt refs), r5)
            | none => none
          | none => none
        | none => none
    | none => none

/-- The COLLECTION section. -/
def parseCollectionSec (fuel : Nat) (cs : List Char) :
    Option (Collection × List Char) :=
  match lit "<COLLECTION".data cs with
  | none => none
  | some r1 =>
    match parseMany parseAttrItem fuel r1 with
    | some (attrs, r2) =>
      let r2 := skipWs r2
      match lit ['/', '>'] r2 with
      | some r3 => some (⟨attrs, none⟩, r3)
      | none =>
        match lit ['>'] r2 with
        | some r3 =>
          match parseMany (fun s => parseTrackEntry fuel (skipWs s)) fuel r3 with
          | some (tracks, r4) =>
            match lit "</COLLECTION>".data (skipWs r4) with
            | some r5 => some (⟨attrs, listOpt tracks⟩, r5)
            | none => none
          | none => none
        | none => none
    | none => none

/-- The PLAYLISTS section. -/
def parsePlaylistsSec (fuel : Nat) (cs : List Char) :
    Option (Playlists × List Char) :=
  match lit "<PLAYLISTS".data cs with
  | none => none
  | some r1 =>
    match parseMany parseAttrItem fuel r1 with
    | some (attrs, r2) =>
      let r2 := skipWs r2
      match lit ['/', '>'] r2 with
      | some r3 => some (⟨attrs, none⟩, r3)
      | none =>
        match lit ['>'] r2 with
        | some r3 =>
          match parseMany (fun s => parseNodeEntry fuel (skipWs s)) fuel r3 with
          | some (nodes, r4) =>
            match lit "</PLAYLISTS>".data (skipWs r4) with
            | some r5 => some (⟨attrs, listOpt nodes⟩, r5)
            | none => none
          | none => none
        | none => none
    | none => none

/-- The DJ_PLAYLISTS root with optional COLLECTION then PLAYLISTS children. -/
def parseDjRoot (fuel : Nat) (cs : List Char) :
    Option (DjPlaylists × List Char) :=
  match lit "<DJ_PLAYLISTS".data cs with
  | none => none
  | some r1 =>
    match parseMany parseAttrItem fuel r1 with
    | some (attrs, r2) =>
      let r2 := skipWs r2
      match lit ['/', '>'] r2 with
      | some r3 => some (⟨attrs, none, none⟩, r3)
      | none =>
        match lit ['>'] r2 with
        | some r3 =>
          let (collOpt, r4) : Option Collection × List Char :=
            match parseCollectionSec fuel (skipWs r3) with
            | some (c, r) => (some c, r)
            | none => (none, r3)
          let (plOpt, r5) : Option Playlists × List Char :=
            match parsePlaylistsSec fuel (skipWs r4) with
            | some (p, r) => (some p, r)
            | none => (none, r4)
          match lit "</DJ_PLAYLISTS>".data (skipWs r5) with
          | some r6 => some (⟨attrs, collOpt, plOpt⟩, r6)
          | none => none
        | none => none
    | none => none

/-- Scan past the end of an XML declaration. -/
def skipDeclEnd : List Char → Option (List Char)
  | '?' :: '>' :: r => some r
  | _ :: r => skipDeclEnd r
  | [] => none

/-- Parse a whole document (`parseXml`): optional declaration, the
DJ_PLAYLISTS root, nothing but whitespace after. -/
def parseXml (s : String) : Option ParsedData :=
  let fuel := s.length + 1
  let cs0 := skipWs s.data
  let step : Bool × Option (List Char) :=
    match lit "<?xml".data cs0 with
    | some r => (true, skipDeclEnd r)
    | none => (false, some cs0)
  match step with
  | (hasDecl, some cs1) =>
    match parseDjRoot fuel (skipWs cs1) with
    | some (dj, r) =>
      if (skipWs r).isEmpty then some ⟨hasDecl, some dj⟩ else none
    | none => none
  | (_, none) => none

/-! ## The public operation -/

/-- Error raised when the collection root is absent (wrapped by the
top-level catch of `processXml`). -/
def errFormat : String := "Error processing XML: Invalid Rekordbox XML format"

/-- Error raised when the collection has no TRACK key: iterating an
undefined property throws a TypeError which the catch wraps. -/
def errNoTracks : String :=
  "Error processing XML: Cannot read properties of undefined (reading forEach)"

/-- Per-track action of the batch loop: selected tracks are processed,
all others pass through untouched. -/
def processTrackIfSelected (cfg : Config) (ids : List String) (t : Track) : Track :=
  if isSelected ids t then processSingleTrack cfg t else t

/-- The whole-tree operation (`processXml`, after parsing): check the root,
process each selected track, append the synthetic playlist, then build.
Returns the serialized output and the final state of the tree. -/
def processXml (d : ParsedData) (cfg : Config) (ids : List String) :
    Except String (String × ParsedData) :=
  if djFalsy d.dj then Except.error errFormat
  else
    match d.dj with
    | none => Except.error errFormat
    | some dj =>
      if collFalsy dj.collection then Except.error errFormat
      else
        match dj.collection with
        | none => Except.error errFormat
        | some coll =>
          match coll.tracks with
          | none => Except.error errNoTracks
          | some ts =>
            let ts2 := ts.map (processTrackIfSelected cfg ids)
            let coll2 : Collection := { coll with tracks := some ts2 }
            let dj2 : DjPlaylists :=
              { dj with collection := some coll2,
                        playlists := some (addPlaylist dj.playlists ids) }
            Except.ok (buildXml { d with dj := some dj2 })

/-! ## Predicates used by the statements -/

/-- The engine skips a track when its resolved tempo or duration is invalid
or either reference point fails to resolve. -/
def trackSkipped (cfg : Config) (t : Track) : Bool :=
  jsInvalidPos (resolveBpm t) || jsInvalidPos (resolveTotalTime t) ||
  (findReferencePoint (optList t.marks) cfg.beforeReference cfg.specificBeforeCue).isNone ||
  (findReferencePoint (optList t.marks) cfg.afterReference cfg.specificAfterCue).isNone

/-- Mark already in canonical form: the build-time completion pass leaves it
unchanged. -/
def markCompleted (m : Attrs) : Bool := completePositionMarkAttributes m == m

/-- Adjacent marks never strictly descending by start key. -/
def sortedByStart : List Attrs → Bool
  | [] => true
  | [_] => true
  | a :: b :: r => !(startLt b a) && sortedByStart (b :: r)

/-- Track whose mark list the build pass leaves unchanged. -/
def canonicalTrack (t : Track) : Bool :=
  match t.marks with
  | none => true
  | some l => l.all markCompleted && sortedByStart l

/-- All tracks of the document are canonical. -/
def canonicalTracks (d : ParsedData) : Bool :=
  ((getTracksOpt d).getD []).all canonicalTrack

/-- JavaScript attribute key in serializable form: the `@_` prefix followed
by a nonempty XML name. -/
def wfAttrKey (k : String) : Bool :=
  match k.data with
  | '@' :: '_' :: (c :: r) => (c :: r).all isNameChar
  | _ => false

/-- Attribute value the modelled serializer can emit verbatim: no quote,
angle bracket or ampersand (values needing entity escaping are outside the
model). -/
def wfAttrVal (v : String) : Bool :=
  v.data.all fun c => c ≠ '"' && c ≠ '<' && c ≠ '>' && c ≠ '&'

def wfAttrs (a : Attrs) : Bool :=
  a.all fun kv => wfAttrKey kv.1 && wfAttrVal kv.2

/-- Track in the image of the parser: well-formed attributes everywhere,
list keys never present-but-empty. -/
def wfTrack (t : Track) : Bool :=
  wfAttrs t.attrs && (optList t.tempos).all wfAttrs && (optList t.marks).all wfAttrs &&
  t.tempos ≠ some [] && t.marks ≠ some []

def wfNode : PlNode → Bool
  | PlNode.undef => false
  | PlNode.node attrs refs =>
    wfAttrs attrs && (optList refs).all wfAttrs && refs ≠ some []

def wfCollection (c : Collection) : Bool :=
  wfAttrs c.attrs && (optList c.tracks).all wfTrack && c.tracks ≠ some []

def wfPlaylists (p : Playlists) : Bool :=
  wfAttrs p.attrs && (optList p.node).all wfNode && p.node ≠ some []

/-- Document in the image of the parser with the fixed declaration. -/
def wfDoc (d : ParsedData) : Bool :=
  d.decl &&
  (match d.dj with
   | some dj =>
     wfAttrs dj.attrs &&
     (match dj.collection with
      | some c => wfCollection c
      | none => true) &&
     (match dj.playlists with
      | some p => wfPlaylists p
      | none => true)
   | none => false)

/-! ## Concrete fixtures -/

/-- Track with a single hot cue in slot 0 at 100 s, BPM 120, 300 s long. -/
def c1Track : Track :=
  { attrs := [("@_TrackID", "2"), ("@_Name", "SongB"), ("@_TotalTime", "300")],
    tempos := some [[("@_Bpm", "120.00")]],
    marks := some [[("@_Name", "A"), ("@_Type", "0"), ("@_Start", "100.000"), ("@_Num", "0")]] }

/-- Two hot cues after the reference, one bar (2 s) apart. -/
def c1Cfg : Config :=
  { beforeReference := "firstHotCue", afterReference := "lastHotCue",
    specificBeforeCue := "A", specificAfterCue := "H",
    beforeCount := 0, afterCount := 2,
    beforeInterval := 1, afterInterval := 1, cueType := "hot" }

/-- Track with a single hot cue in slot 0 at 100 s, BPM 600 (bar 0.4 s). -/
def c2Track : Track :=
  { attrs := [("@_TrackID", "3"), ("@_Name", "SongC"), ("@_TotalTime", "300")],
    tempos := some [[("@_Bpm", "600")]],
    marks := some [[("@_Name", "A"), ("@_Type", "0"), ("@_Start", "100.000"), ("@_Num", "0")]] }

/-- Three memory cues after the reference at 0.4 s steps. -/
def c2Cfg : Config :=
  { beforeReference := "firstHotCue", afterReference := "lastHotCue",
    specificBeforeCue := "A", specificAfterCue := "H",
    beforeCount := 0, afterCount := 3,
    beforeInterval := 1, afterInterval := 1, cueType := "memory" }

/-- Scenario A track: one hot cue in slot 0 at 30.000 s, BPM 120 from the
first tempo marker, duration 300 s. -/
def c4Track : Track :=
  { attrs := [("@_TrackID", "1"), ("@_Name", "SongA"), ("@_TotalTime", "300")],
    tempos := some [[("@_Inizio", "0.025"), ("@_Bpm", "120.00")]],
    marks := some [[("@_Name", "A"), ("@_Type", "0"), ("@_Start", "30.000"), ("@_Num", "0")]] }

/-- Scenario A counts and intervals with the single cue kind memory. -/
def c4CfgMemory : Config :=
  { beforeReference := "firstHotCue", afterReference := "lastHotCue",
    specificBeforeCue := "A", specificAfterCue := "H",
    beforeCount := 2, afterCount := 1,
    beforeInterval := 8, afterInterval := 16, cueType := "memory" }

/-- Scenario A counts and intervals with the single cue kind hot. -/
def c4CfgHot : Config :=
  { beforeReference := "firstHotCue", afterReference := "lastHotCue",
    specificBeforeCue := "A", specificAfterCue := "H",
    beforeCount := 2, afterCount := 1,
    beforeInterval := 8, afterInterval := 16, cueType := "hot" }

/-- Scenario A document with the single track. -/
def c4Doc : ParsedData :=
  { decl := true,
    dj := some
      { attrs := [("@_Version", "1.0.0")],
        collection := some { attrs := [("@_Entries", "1")], tracks := some [c4Track] },
        playlists := none } }

/-- The marks expected on the Scenario A track after processing with the
memory kind. -/
def c4ExpectedMarks : List Attrs :=
  [[("@_Name", "Auto 2"), ("@_Type", "0"), ("@_Start", "14.000"), ("@_Num", "-1")],
   [("@_Name", "A"), ("@_Type", "0"), ("@_Start", "30.000"), ("@_Num", "0")],
   [("@_Name", "Auto 1"), ("@_Type", "0"), ("@_Start", "62.000"), ("@_Num", "-1")]]

/-- Well-formed document whose collection root is present (truthy, it has an
attribute) but holds zero track entries, so no TRACK key materializes. -/
def c5Doc : ParsedData :=
  { decl := true,
    dj := some
      { attrs := [("@_Version", "1.0.0")],
        collection := some { attrs := [("@_Entries", "0")], tracks := none },
        playlists := none } }

def c5Cfg : Config :=
  { beforeReference := "firstHotCue", afterReference := "lastHotCue",
    specificBeforeCue := "A", specificAfterCue := "H",
    beforeCount := 2, afterCount := 4,
    beforeInterval := 8, afterInterval := 16, cueType := "memory" }

/-- Track skipped for an invalid tempo (no TEMPO marker, no AverageBpm)
whose POSITION_MARK key is absent. -/
def c6Track : Track :=
  { attrs := [("@_TrackID", "7"), ("@_Name", "NoBpm"), ("@_TotalTime", "200")],
    tempos := none,
    marks := none }

def c6Cfg : Config :=
  { beforeReference := "firstHotCue", afterReference := "lastHotCue",
    specificBeforeCue := "A", specificAfterCue := "H",
    beforeCount := 2, afterCount := 4,
    beforeInterval := 8, afterInterval := 16, cueType := "memory" }

/-- Unselected track whose mark carries the kind discriminator "1", which
the build pass rewrites to "0". -/
def c7Track : Track :=
  { attrs := [("@_TrackID", "5"), ("@_Name", "Untouched"), ("@_TotalTime", "300")],
    tempos := some [[("@_Bpm", "120.00")]],
    marks := some [[("@_Name", "M"), ("@_Type", "1"), ("@_Start", "10.000"), ("@_Num", "-1")]] }

def c7Doc : ParsedData :=
  { decl := true,
    dj := some
      { attrs := [("@_Version", "1.0.0")],
        collection := some { attrs := [("@_Entries", "1")], tracks := some [c7Track] },
        playlists := none } }

def c7Cfg : Config :=
  { beforeReference := "firstHotCue", afterReference := "lastHotCue",
    specificBeforeCue := "A", specificAfterCue := "H",
    beforeCount := 1, afterCount := 1,
    beforeInterval := 8, afterInterval := 16, cueType := "memory" }

/-- Canonical track used to witness the frame theorems. -/
def cwTrack : Track :=
  { attrs := [("@_TrackID", "11"), ("@_Name", "Canon"), ("@_TotalTime", "300")],
    tempos := some [[("@_Bpm", "120.00")]],
    marks := some [[("@_Name", "A"), ("@_Type", "0"), ("@_Start", "30.000"), ("@_Num", "0")],
                   [("@_Name", "B"), ("@_Type", "0"), ("@_Start", "60.000"), ("@_Num", "1")]] }

def c7WDoc : ParsedData :=
  { decl := true,
    dj := some
      { attrs := [("@_Version", "1.0.0")],
        collection := some { attrs := [("@_Entries", "1")], tracks := some [cwTrack] },
        playlists := none } }

/-- Document whose single track has a non-canonical mark start "30.5". -/
def c8Doc : ParsedData :=
  { decl := true,
    dj := some
      { attrs := [("@_Version", "1.0.0")],
        collection := some
          { attrs := [("@_Entries", "1")],
            tracks := some
              [{ attrs := [("@_TrackID", "1")],
                 tempos := none,
                 marks := some [[("@_Name", "A"), ("@_Type", "0"), ("@_Start", "30.5"), ("@_Num", "0")]] }] },
        playlists := none } }

/-- Canonical document used to witness the build-purity theorem. -/
def c8WDoc : ParsedData :=
  { decl := true,
    dj := some
      { attrs := [("@_Version", "1.0.0")],
        collection := some { attrs := [("@_Entries", "1")], tracks := some [cwTrack] },
        playlists := none } }

def c9WDoc : ParsedData :=
  { decl := true,
    dj := some
      { attrs := [("@_Version", "1.0.0")],
        collection := some { attrs := [("@_Entries", "1")], tracks := some [cwTrack] },
        playlists := some
          { attrs := [],
            node := some [PlNode.node [("@_Name", "ROOT"), ("@_Type", "0")] none] } } }

def c9Cfg : Config :=
  { beforeReference := "firstHotCue", afterReference := "lastHotCue",
    specificBeforeCue := "A", specificAfterCue := "H",
    beforeCount := 1, afterCount := 1,
    beforeInterval := 8, afterInterval := 16, cueType := "memory" }

def c10WDoc : ParsedData :=
  { decl := true,
    dj := some
      { attrs := [("@_Version", "1.0.0")],
        collection := some { attrs := [("@_Entries", "1")], tracks := some [cwTrack] },
        playlists := none } }

def c10Cfg : Config :=
  { beforeReference := "firstHotCue", afterReference := "lastHotCue",
    specificBeforeCue := "A", specificAfterCue := "H",
    beforeCount := 1, afterCount := 1,
    beforeInterval := 8, afterInterval := 16, cueType := "memory" }

/-- A track whose mark start, "30.5", is not in the serializer's three-decimal
form: the build step rewrites it. -/
def c3Track : Track :=
  { attrs := [("@_TrackID", "1")],
    tempos := none,
    marks := some [[("@_Name", "A"), ("@_Type", "0"), ("@_Start", "30.5"), ("@_Num", "0")]] }

def c3Doc : ParsedData :=
  { decl := true,
    dj := some
      { attrs := [("@_Version", "1.0.0")],
        collection := some { attrs := [("@_Entries", "1")], tracks := some [c3Track] },
        playlists := none } }

/-- A concrete in-vocabulary document text. -/
def c3Text : String := (renderDocC c3Doc).asString

/-- A track already in canonical form: completed mark attributes, three-decimal
start, sorted marks. -/
def c3CanTrack : Track :=
  { attrs := [("@_TrackID", "1"), ("@_Name", "SongA"), ("@_TotalTime", "300")],
    tempos := some [[("@_Inizio", "0.025"), ("@_Bpm", "120.00")]],
    marks := some [[("@_Name", "A"), ("@_Type", "0"), ("@_Start", "30.000"), ("@_Num", "0")]] }

/-- A canonical well-formed document exercising every section of the
serializer and parser (collection, playlists, nested nodes, track refs). -/
def c3CanDoc : ParsedData :=
  { decl := true,
    dj := some
      { attrs := [("@_Version", "1.0.0")],
        collection := some { attrs := [("@_Entries", "1")], tracks := some [c3CanTrack] },
        playlists := some
          { attrs := [],
            node := some [PlNode.node [("@_Name", "ROOT"), ("@_Type", "0"), ("@_Count", "1")]
              (some [[("@_Key", "1")]])] } } }

end Autocue

namespace Autocue

/-! ## Helper lemmas -/

theorem map_eq_self_of_forall {α : Type} {f : α → α} :
    ∀ {l : List α}, (∀ x ∈ l, f x = x) → l.map f = l
  | [], _ => rfl
  | x :: xs, h => by
    simp only [List.map_cons]
    rw [h x (by simp), map_eq_self_of_forall (fun y hy => h y (by simp [hy]))]

theorem sortByStart_of_sorted :
    ∀ {l : List Attrs}, sortedByStart l = true → sortByStart l = l := by
  intro l
  induction l with
  | nil => intro _; rfl
  | cons x xs ih =>
    intro h
    cases xs with
    | nil => rfl
    | cons y ys =>
      have hs : sortedByStart (y :: ys) = true := by
        simp only [sortedByStart, Bool.and_eq_true] at h
        exact h.2
      have hlt : startLt y x = false := by
        simp only [sortedByStart, Bool.and_eq_true, Bool.not_eq_true'] at h
        exact h.1
      show insertMark x (sortByStart (y :: ys)) = x :: y :: ys
      rw [ih hs]
      simp [insertMark, hlt]

theorem completeTrackMarks_of_canonical {t : Track} (h : canonicalTrack t = true) :
    completeTrackMarks t = t := by
  unfold completeTrackMarks
  unfold canonicalTrack at h
  cases hm : t.marks with
  | none => rfl
  | some l =>
    rw [hm] at h
    simp only [Bool.and_eq_true, List.all_eq_true] at h
    obtain ⟨hall, hsorted⟩ := h
    have hmap : l.map completePositionMarkAttributes = l := by
      apply map_eq_self_of_forall
      intro m hmem
      have := hall m hmem
      simpa [markCompleted] using this
    simp only [hmap, sortByStart_of_sorted hsorted]
    rw [← hm]

theorem processAllPositionMarks_eq {d : ParsedData} {dj : DjPlaylists}
    {coll : Collection} {ts : List Track}
    (h1 : d.dj = some dj) (h2 : dj.collection = some coll) (h3 : coll.tracks = some ts) :
    processAllPositionMarks d =
      { d with dj := some { dj with collection := some { coll with tracks := some (ts.map completeTrackMarks) } } } := by
  unfold processAllPositionMarks
  simp only [h1, h2, h3]

theorem processXml_eq (d : ParsedData) (cfg : Config) (ids : List String)
    {dj : DjPlaylists} {coll : Collection} {ts : List Track}
    (h1 : d.dj = some dj) (h2 : dj.collection = some coll) (h3 : coll.tracks = some ts) :
    processXml d cfg ids =
      Except.ok (buildXml
        { d with dj := some { dj with collection := some { coll with tracks := some (ts.map (processTrackIfSelected cfg ids)) }, playlists := some (addPlaylist dj.playlists ids) } }) := by
  unfold processXml
  have hdj : djFalsy (some dj) = false := by
    simp [djFalsy, h2]
  have hcoll : collFalsy (some coll) = false := by
    simp [collFalsy, h3]
  simp only [h1, h2, h3, hdj, hcoll, Bool.false_eq_true, if_false]

theorem contains_filter_ne {v id : String} (h : v ≠ id) :
    ∀ l : List String, (l.filter (fun x => x != id)).contains v = l.contains v := by
  intro l
  induction l with
  | nil => rfl
  | cons y l ih =>
    by_cases hy : y = id
    · subst hy
      simp only [List.filter_cons, bne_self_eq_false, Bool.false_eq_true, if_false,
        List.contains_cons, ih]
      have hvy : (v == y) = false := by
        simp [h]
      simp [hvy]
    · have hb : (y != id) = true := by
        simp [bne_iff_ne, hy]
      simp [List.filter_cons, hb, List.contains_cons, ih, h]

theorem addPlaylist_node (pl : Option Playlists) (ids : List String) :
    (addPlaylist pl ids).node = some (baseNodes pl ++ [autocueNode ids]) := by
  unfold addPlaylist baseNodes
  cases hp : plFalsy pl with
  | true => simp
  | false =>
    cases pl with
    | none => simp [plFalsy] at hp
    | some p => simp [hp]

/-! ## Round-trip lemmas for the adapter -/

theorem skipWs_cons_of_ws {c : Char} (h : isWsChar c = true) (r : List Char) :
    skipWs (c :: r) = skipWs r := by
  simp [skipWs, h]

theorem skipWs_cons_of_not {c : Char} (h : isWsChar c = false) (r : List Char) :
    skipWs (c :: r) = c :: r := by
  simp [skipWs, h]

theorem skipWs_append_ws {w : List Char} (h : ∀ c ∈ w, isWsChar c = true) (r : List Char) :
    skipWs (w ++ r) = skipWs r := by
  induction w with
  | nil => rfl
  | cons c cs ih =>
    rw [List.cons_append, skipWs_cons_of_ws (h c (by simp))]
    exact ih (fun x hx => h x (by simp [hx]))

theorem skipWs_indent (n : Nat) (r : List Char) :
    skipWs (indentC n ++ r) = skipWs r := by
  apply skipWs_append_ws
  intro c hc
  have : c = ' ' := List.eq_of_mem_replicate hc
  subst this
  rfl

theorem skipWs_length : ∀ r : List Char, (skipWs r).length ≤ r.length := by
  intro r
  induction r with
  | nil => simp [skipWs]
  | cons c cs ih =>
    by_cases h : isWsChar c = true
    · rw [skipWs_cons_of_ws h]
      exact Nat.le_trans ih (by simp)
    · rw [skipWs_cons_of_not (Bool.eq_false_iff.mpr h)]

theorem lit_append : ∀ (l r : List Char), lit l (l ++ r) = some r := by
  intro l
  induction l with
  | nil => intro r; rfl
  | cons c cs ih =>
    intro r
    simp [lit, ih]

theorem nameChar_not_ws {c : Char} (h : isNameChar c = true) : isWsChar c = false := by
  cases hw : isWsChar c with
  | false => rfl
  | true =>
    exfalso
    simp only [isWsChar, Bool.or_eq_true, decide_eq_true_eq] at hw
    rcases hw with ((h1 | h1) | h1) | h1 <;> subst h1 <;> simp [isNameChar, Char.isAlphanum,
      Char.isAlpha, Char.isUpper, Char.isLower, Char.isDigit] at h

theorem takeWhile_all_append {p : Char → Bool} :
    ∀ {l : List Char} {y : Char} (r : List Char), (∀ c ∈ l, p c = true) → p y = false →
      (l ++ y :: r).takeWhile p = l ∧ (l ++ y :: r).dropWhile p = y :: r := by
  intro l
  induction l with
  | nil =>
    intro y r _ hy
    simp [List.takeWhile, List.dropWhile, hy]
  | cons c cs ih =>
    intro y r hall hy
    have hc : p c = true := hall c (by simp)
    have := ih (y := y) r (fun x hx => hall x (by simp [hx])) hy
    simp [List.takeWhile, List.dropWhile, hc, this.1, this.2]

theorem asString_of_data {k : String} {l : List Char} (h : k.data = l) : l.asString = k := by
  cases k
  simp only [String.data] at h
  subst h
  rfl

theorem parseAttrItem_stop {c : Char} (hc : c = '>' ∨ c = '/') (r : List Char) :
    parseAttrItem (c :: r) = none := by
  rcases hc with h | h <;> subst h <;> rfl

theorem parseAttrItem_render {k v : String} (hk : wfAttrKey k = true) (hv : wfAttrVal v = true)
    (r : List Char) :
    parseAttrItem (' ' :: (attrNameChars k ++ '=' :: '"' :: (v.data ++ '"' :: r))) =
      some ((k, v), r) := by
  unfold wfAttrKey at hk
  split at hk
  case h_2 => exact absurd hk (by simp)
  case h_1 c0 cr heq =>
    simp only [List.all_eq_true] at hk
    have hname : attrNameChars k = c0 :: cr := by
      unfold attrNameChars
      rw [heq]
      rfl
    have hc0 : isNameChar c0 = true := hk c0 (by simp)
    have hspan := takeWhile_all_append (p := isNameChar)
      (l := c0 :: cr) (y := '=') ('"' :: (v.data ++ '"' :: r))
      (by intro x hx; exact hk x hx) (by rfl)
    rw [List.cons_append] at hspan
    have hlit : lit ['=', '"'] ('=' :: '"' :: (v.data ++ '"' :: r)) =
        some (v.data ++ '"' :: r) := lit_append ['=', '"'] (v.data ++ '"' :: r)
    have hvspan := takeWhile_all_append (p := fun c => decide (c ≠ '"'))
      (l := v.data) (y := '"') r
      (by
        intro x hx
        have := (List.all_eq_true.mp hv) x hx
        simp only [Bool.and_eq_true, decide_eq_true_eq] at this
        simp [this.1])
      (by simp)
    unfold parseAttrItem
    rw [hname, skipWs_cons_of_ws (by rfl), List.cons_append,
      skipWs_cons_of_not (nameChar_not_ws hc0)]
    simp only [hspan.1, hspan.2, List.isEmpty_cons, Bool.false_eq_true, if_false,
      hlit, hvspan.1, hvspan.2]
    rw [asString_of_data heq, asString_of_data rfl]

theorem parseManyAttrs_render :
    ∀ (attrs : Attrs) (fuel : Nat) (c : Char) (r : List Char),
      wfAttrs attrs = true →
      (renderAttrsC attrs ++ c :: r).length ≤ fuel →
      (c = '>' ∨ c = '/') →
      parseMany parseAttrItem fuel (renderAttrsC attrs ++ c :: r) = some (attrs, c :: r) := by
  intro attrs
  induction attrs with
  | nil =>
    intro fuel c r _ _ hc
    cases fuel with
    | zero => rfl
    | succ f => simp [parseMany, parseAttrItem_stop hc, renderAttrsC]
  | cons kv rest ih =>
    intro fuel c r hwf hlen hc
    have hwf1 : wfAttrKey kv.1 = true ∧ wfAttrVal kv.2 = true := by
      have := (List.all_eq_true.mp hwf) kv (by simp)
      simpa [Bool.and_eq_true] using this
    have hwfrest : wfAttrs rest = true := by
      apply List.all_eq_true.mpr
      intro x hx
      exact (List.all_eq_true.mp hwf) x (by simp [hx])
    have hshape : renderAttrsC (kv :: rest) ++ c :: r =
        ' ' :: (attrNameChars kv.1 ++ '=' :: '"' :: (kv.2.data ++ '"' :: (renderAttrsC rest ++ c :: r))) := by
      show (' ' :: (attrNameChars kv.1 ++ '=' :: '"' :: (kv.2.data ++ '"' :: renderAttrsC rest))) ++ c :: r = _
      simp [List.append_assoc]
    cases fuel with
    | zero =>
      exfalso
      rw [hshape] at hlen
      simp at hlen
    | succ f =>
      rw [hshape]
      have hlen2 : (renderAttrsC rest ++ c :: r).length ≤ f := by
        rw [hshape] at hlen
        simp only [List.length_cons, List.length_append] at hlen ⊢
        omega
      simp only [parseMany, parseAttrItem_render hwf1.1 hwf1.2,
        ih f c r hwfrest hlen2 hc]

end Autocue

namespace Autocue

theorem parseLeaf_self {tag : String} {a : Attrs} (ha : wfAttrs a = true) (fuel : Nat)
    (r : List Char) (hlen : (coreLeafC tag a ++ r).length ≤ fuel) :
    parseLeaf tag fuel (coreLeafC tag a ++ r) = some (a, r) := by
  have hshape : coreLeafC tag a ++ r
      = ('<' :: tag.data) ++ (renderAttrsC a ++ '/' :: '>' :: r) := by
    simp [coreLeafC]
  have hlen2 : (renderAttrsC a ++ '/' :: '>' :: r).length ≤ fuel := by
    rw [hshape] at hlen
    simp only [List.length_append, List.length_cons] at hlen ⊢
    omega
  have hattrs := parseManyAttrs_render a fuel '/' ('>' :: r) ha hlen2 (Or.inr rfl)
  have hlit2 : lit ['/', '>'] ('/' :: '>' :: r) = some r := lit_append ['/', '>'] r
  unfold parseLeaf
  rw [hshape, lit_append]
  simp only [hattrs, skipWs_cons_of_not (show isWsChar '/' = false from rfl), hlit2]

theorem parseLeaf_paired {tag : String} {a : Attrs} (ha : wfAttrs a = true) (fuel : Nat)
    (r : List Char) (hlen : (corePairedEmptyC tag a ++ r).length ≤ fuel) :
    parseLeaf tag fuel (corePairedEmptyC tag a ++ r) = some (a, r) := by
  have hshape : corePairedEmptyC tag a ++ r
      = ('<' :: tag.data) ++ (renderAttrsC a ++ '>' :: (('<' :: '/' :: (tag.data ++ ['>'])) ++ r)) := by
    simp [corePairedEmptyC]
  have hlen2 : (renderAttrsC a ++ '>' :: (('<' :: '/' :: (tag.data ++ ['>'])) ++ r)).length ≤ fuel := by
    rw [hshape] at hlen
    simp only [List.length_append, List.length_cons] at hlen ⊢
    omega
  have hattrs := parseManyAttrs_render a fuel '>'
    (('<' :: '/' :: (tag.data ++ ['>'])) ++ r) ha hlen2 (Or.inl rfl)
  have hnoslash : lit ['/', '>'] ('>' :: (('<' :: '/' :: (tag.data ++ ['>'])) ++ r)) = none := rfl
  have hgt : lit ['>'] ('>' :: (('<' :: '/' :: (tag.data ++ ['>'])) ++ r)) =
      some ('<' :: '/' :: ((tag.data ++ ['>']) ++ r)) := lit_append ['>'] _
  have hclose : lit ('<' :: '/' :: (tag.data ++ ['>'])) ('<' :: '/' :: ((tag.data ++ ['>']) ++ r)) =
      some r := lit_append _ r
  unfold parseLeaf
  rw [hshape, lit_append]
  simp only [hattrs]
  rw [skipWs_cons_of_not (show isWsChar '>' = false by rfl)]
  simp only [hnoslash, hgt]
  rw [skipWs_cons_of_not (show isWsChar '<' = false by rfl)]
  simp only [hclose]

theorem parseLeaf_tempo_stop_mark (fuel : Nat) (x : List Char) :
    parseLeaf "TEMPO" fuel ('<' :: 'P' :: x) = none := rfl

theorem parseLeaf_tempo_stop_close (fuel : Nat) (x : List Char) :
    parseLeaf "TEMPO" fuel ('<' :: '/' :: x) = none := rfl

theorem parseLeaf_mark_stop_close (fuel : Nat) (x : List Char) :
    parseLeaf "POSITION_MARK" fuel ('<' :: '/' :: x) = none := rfl

theorem parseLeaf_ref_stop_close (fuel : Nat) (x : List Char) :
    parseLeaf "TRACK" fuel ('<' :: '/' :: x) = none := rfl

theorem parseTrackEntry_stop_close (fuel : Nat) (x : List Char) :
    parseTrackEntry fuel ('<' :: '/' :: x) = none := rfl

theorem parseNodeEntry_stop_close (fuel : Nat) (x : List Char) :
    parseNodeEntry fuel ('<' :: '/' :: x) = none := rfl

theorem parseCollectionSec_stop_pl (fuel : Nat) (x : List Char) :
    parseCollectionSec fuel ('<' :: 'P' :: x) = none := rfl

theorem parseCollectionSec_stop_close (fuel : Nat) (x : List Char) :
    parseCollectionSec fuel ('<' :: '/' :: x) = none := rfl

theorem parsePlaylistsSec_stop_close (fuel : Nat) (x : List Char) :
    parsePlaylistsSec fuel ('<' :: '/' :: x) = none := rfl

theorem parseMany_items {α : Type} (coreP : List Char → Option (α × List Char))
    (coreR : α → List Char) (ind : Nat) :
    ∀ (l : List α) (fuel : Nat) (input r : List Char),
      input.length ≤ fuel →
      (∀ a ∈ l, ∀ s, (coreR a ++ s).length ≤ fuel → coreP (coreR a ++ s) = some (a, s)) →
      (∀ a ∈ l, ∃ tl, coreR a = '<' :: tl) →
      coreP (skipWs r) = none →
      skipWs input = skipWs (renderLinesC coreR ind l ++ r) →
      ∃ r2, parseMany (fun s => coreP (skipWs s)) fuel input = some (l, r2) ∧
        skipWs r2 = skipWs r ∧ r2.length ≤ input.length := by
  intro l
  induction l with
  | nil =>
    intro fuel input r _ _ _ hstop hin
    have h0 : renderLinesC coreR ind ([] : List α) = [] := rfl
    rw [h0, List.nil_append] at hin
    cases fuel with
    | zero => exact ⟨input, rfl, hin, Nat.le_refl _⟩
    | succ f =>
      refine ⟨input, ?_, hin, Nat.le_refl _⟩
      show parseMany (fun s => coreP (skipWs s)) (f + 1) input = some ([], input)
      have : coreP (skipWs input) = none := by rw [hin]; exact hstop
      simp only [parseMany, this]
  | cons a l' ih =>
    intro fuel input r hlen hgood hhead hstop hin
    obtain ⟨tl, htl⟩ := hhead a (by simp)
    have hrender : renderLinesC coreR ind (a :: l') ++ r =
        indentC ind ++ (coreR a ++ '\n' :: (renderLinesC coreR ind l' ++ r)) := by
      show ((indentC ind ++ coreR a ++ ['\n']) ++ (List.map
        (fun x => indentC ind ++ coreR x ++ ['\n']) l').flatten) ++ r = _
      simp [List.append_assoc, renderLinesC]
    rw [hrender, skipWs_indent] at hin
    have hskipcore : skipWs (coreR a ++ '\n' :: (renderLinesC coreR ind l' ++ r)) =
        coreR a ++ '\n' :: (renderLinesC coreR ind l' ++ r) := by
      rw [htl, List.cons_append]
      exact skipWs_cons_of_not (show isWsChar '<' = false by rfl) _
    rw [hskipcore] at hin
    have hsl : (coreR a ++ '\n' :: (renderLinesC coreR ind l' ++ r)).length ≤ input.length := by
      rw [← hin]
      exact skipWs_length input
    have hXlen : ('\n' :: (renderLinesC coreR ind l' ++ r)).length + 1 ≤ input.length := by
      have : 1 ≤ (coreR a).length := by rw [htl]; simp
      simp only [List.length_append] at hsl
      omega
    cases fuel with
    | zero =>
      exfalso
      omega
    | succ f =>
      have hpa : coreP (skipWs input) = some (a, '\n' :: (renderLinesC coreR ind l' ++ r)) := by
        rw [hin]
        exact hgood a (by simp) _ (Nat.le_trans hsl hlen)
      have hrec := ih f ('\n' :: (renderLinesC coreR ind l' ++ r)) r
        (by omega)
        (fun b hb s hs => hgood b (by simp [hb]) s (by omega))
        (fun b hb => hhead b (by simp [hb]))
        hstop
        (by rw [skipWs_cons_of_ws (show isWsChar '\n' = true by rfl)])
      obtain ⟨r2, heq, hr2, hr2len⟩ := hrec
      refine ⟨r2, ?_, hr2, by simp only [List.length_cons] at hXlen hr2len ⊢; omega⟩
      simp only [parseMany, hpa, heq]

theorem listOpt_optList {α : Type} {o : Option (List α)} (h : o ≠ some []) :
    listOpt (optList o) = o := by
  cases o with
  | none => rfl
  | some l =>
    cases l with
    | nil => exact absurd rfl h
    | cons x xs => rfl

theorem dataTRACK : "TRACK".data = ['T', 'R', 'A', 'C', 'K'] := rfl

theorem dataOpenTRACK : "<TRACK".data = ['<', 'T', 'R', 'A', 'C', 'K'] := rfl

theorem dataCloseTRACK : "</TRACK>".data = ['<', '/', 'T', 'R', 'A', 'C', 'K', '>'] := rfl

theorem dataPOSITION : "POSITION_MARK".data =
    ['P', 'O', 'S', 'I', 'T', 'I', 'O', 'N', '_', 'M', 'A', 'R', 'K'] := rfl

theorem skipWs_closeTRACK (r : List Char) :
    skipWs ("</TRACK>".data ++ r) = "</TRACK>".data ++ r := by
  rw [dataCloseTRACK]
  simp only [List.cons_append]
  exact skipWs_cons_of_not (by rfl) _

/-- The TEMPO item parser fails at the marks that follow, and at whatever
closing tag comes after the marks. -/
theorem tempo_stop {marks : List Attrs} (fuel ind : Nat) (w : List Char)
    (hw : ∃ x, skipWs w = '<' :: '/' :: x) :
    parseLeaf "TEMPO" fuel
      (skipWs (renderLinesC (coreLeafC "POSITION_MARK") ind marks ++ w)) = none := by
  cases marks with
  | nil =>
    obtain ⟨x, hx⟩ := hw
    show parseLeaf "TEMPO" fuel (skipWs ([] ++ w)) = none
    rw [List.nil_append, hx]
    exact parseLeaf_tempo_stop_close fuel _
  | cons m ms =>
    have hsh : renderLinesC (coreLeafC "POSITION_MARK") ind (m :: ms) ++ w =
        indentC ind ++ (coreLeafC "POSITION_MARK" m ++ ('\n' ::
          (renderLinesC (coreLeafC "POSITION_MARK") ind ms ++ w))) := by
      show ((indentC ind ++ coreLeafC "POSITION_MARK" m ++ ['\n']) ++
        (List.map (fun x => indentC ind ++ coreLeafC "POSITION_MARK" x ++ ['\n']) ms).flatten) ++ _ = _
      simp [List.append_assoc, renderLinesC]
    rw [hsh, skipWs_indent]
    show parseLeaf "TEMPO" fuel
      (skipWs (('<' :: ("POSITION_MARK".data ++ renderAttrsC m ++ ['/', '>'])) ++ _)) = none
    rw [List.cons_append, skipWs_cons_of_not (by rfl), dataPOSITION]
    simp only [List.cons_append]
    exact parseLeaf_tempo_stop_mark fuel _

/-- The POSITION_MARK item parser fails at the track close tag. -/
theorem mark_stop (fuel ind : Nat) (r : List Char) :
    parseLeaf "POSITION_MARK" fuel
      (skipWs (indentC ind ++ ("</TRACK>".data ++ r))) = none := by
  rw [skipWs_indent, skipWs_closeTRACK, dataCloseTRACK]
  exact parseLeaf_mark_stop_close fuel _

theorem parseTrackEntry_core {t : Track} (hw : wfTrack t = true) (ind fuel : Nat)
    (r : List Char) (hlen : (coreTrackC ind t ++ r).length ≤ fuel) :
    parseTrackEntry fuel (coreTrackC ind t ++ r) = some (t, r) := by
  obtain ⟨attrs, tempos, marks⟩ := t
  simp only [wfTrack, Bool.and_eq_true, decide_eq_true_eq] at hw
  obtain ⟨⟨⟨⟨ha, htw⟩, hmw⟩, hte⟩, hme⟩ := hw
  by_cases hcase : ((optList tempos).isEmpty && (optList marks).isEmpty) = true
  · -- childless: the track renders and parses in paired-empty form
    have htn : tempos = none := by
      cases tempos with
      | none => rfl
      | some l =>
        cases l with
        | nil => exact absurd rfl hte
        | cons x xs => simp [optList] at hcase
    have hmn : marks = none := by
      cases marks with
      | none => rfl
      | some l =>
        cases l with
        | nil => exact absurd rfl hme
        | cons x xs => simp [optList] at hcase
    subst htn hmn
    have hshape : coreTrackC ind ⟨attrs, none, none⟩ ++ r =
        "<TRACK".data ++ (renderAttrsC attrs ++ '>' :: ("</TRACK>".data ++ r)) := by
      show corePairedEmptyC "TRACK" attrs ++ r = _
      simp [corePairedEmptyC, dataTRACK, dataOpenTRACK, dataCloseTRACK, List.append_assoc]
    rw [hshape] at hlen ⊢
    have hlen2 : (renderAttrsC attrs ++ '>' :: ("</TRACK>".data ++ r)).length ≤ fuel := by
      simp only [List.length_append, List.length_cons] at hlen ⊢
      omega
    have hattrs := parseManyAttrs_render attrs fuel '>' ("</TRACK>".data ++ r) ha hlen2 (Or.inl rfl)
    have hXne : 0 < ("</TRACK>".data ++ r).length := by
      rw [dataCloseTRACK]
      simp
    cases fuel with
    | zero =>
      exfalso
      simp only [List.length_append, List.length_cons] at hlen
      omega
    | succ f =>
      unfold parseTrackEntry
      rw [lit_append]
      simp only [hattrs]
      rw [skipWs_cons_of_not (show isWsChar '>' = false by rfl)]
      have hnoslash : lit ['/', '>'] ('>' :: ("</TRACK>".data ++ r)) = none := rfl
      have hgt : lit ['>'] ('>' :: ("</TRACK>".data ++ r)) = some ("</TRACK>".data ++ r) :=
        lit_append ['>'] _
      simp only [hnoslash, hgt]
      have hstop1 : parseLeaf "TEMPO" (f + 1) (skipWs ("</TRACK>".data ++ r)) = none := by
        rw [skipWs_closeTRACK, dataCloseTRACK]
        exact parseLeaf_tempo_stop_close _ _
      have hstop2 : parseLeaf "POSITION_MARK" (f + 1) (skipWs ("</TRACK>".data ++ r)) = none := by
        rw [skipWs_closeTRACK, dataCloseTRACK]
        exact parseLeaf_mark_stop_close _ _
      simp only [parseMany, hstop1, hstop2]
      rw [skipWs_closeTRACK]
      rw [lit_append]
      rfl
  · -- at least one child element
    have hshape : coreTrackC ind ⟨attrs, tempos, marks⟩ ++ r =
        "<TRACK".data ++ (renderAttrsC attrs ++ '>' :: '\n' ::
          (renderLinesC (coreLeafC "TEMPO") (ind + 1) (optList tempos) ++
            (renderLinesC (coreLeafC "POSITION_MARK") (ind + 1) (optList marks) ++
              (indentC ind ++ ("</TRACK>".data ++ r))))) := by
      show (if ((optList tempos).isEmpty && (optList marks).isEmpty) = true then _ else _) ++ r = _
      rw [if_neg hcase]
      simp [dataTRACK, dataOpenTRACK, List.append_assoc]
    rw [hshape] at hlen ⊢
    have hlen2 : (renderAttrsC attrs ++ '>' :: '\n' ::
        (renderLinesC (coreLeafC "TEMPO") (ind + 1) (optList tempos) ++
          (renderLinesC (coreLeafC "POSITION_MARK") (ind + 1) (optList marks) ++
            (indentC ind ++ ("</TRACK>".data ++ r))))).length ≤ fuel := by
      simp only [List.length_append, List.length_cons] at hlen ⊢
      omega
    have hattrs := parseManyAttrs_render attrs fuel '>'
      ('\n' :: (renderLinesC (coreLeafC "TEMPO") (ind + 1) (optList tempos) ++
        (renderLinesC (coreLeafC "POSITION_MARK") (ind + 1) (optList marks) ++
          (indentC ind ++ ("</TRACK>".data ++ r))))) ha hlen2 (Or.inl rfl)
    unfold parseTrackEntry
    rw [lit_append]
    simp only [hattrs]
    rw [skipWs_cons_of_not (show isWsChar '>' = false by rfl)]
    have hnoslash : lit ['/', '>'] ('>' :: '\n' ::
        (renderLinesC (coreLeafC "TEMPO") (ind + 1) (optList tempos) ++
          (renderLinesC (coreLeafC "POSITION_MARK") (ind + 1) (optList marks) ++
            (indentC ind ++ ("</TRACK>".data ++ r))))) = none := rfl
    have hgt : lit ['>'] ('>' :: '\n' ::
        (renderLinesC (coreLeafC "TEMPO") (ind + 1) (optList tempos) ++
          (renderLinesC (coreLeafC "POSITION_MARK") (ind + 1) (optList marks) ++
            (indentC ind ++ ("</TRACK>".data ++ r))))) =
        some ('\n' :: (renderLinesC (coreLeafC "TEMPO") (ind + 1) (optList tempos) ++
          (renderLinesC (coreLeafC "POSITION_MARK") (ind + 1) (optList marks) ++
            (indentC ind ++ ("</TRACK>".data ++ r))))) := lit_append ['>'] _
    simp only [hnoslash, hgt]
    have hinlen : ('\n' :: (renderLinesC (coreLeafC "TEMPO") (ind + 1) (optList tempos) ++
        (renderLinesC (coreLeafC "POSITION_MARK") (ind + 1) (optList marks) ++
          (indentC ind ++ ("</TRACK>".data ++ r))))).length ≤ fuel := by
      simp only [List.length_append, List.length_cons] at hlen ⊢
      omega
    obtain ⟨r2, heq2, hskip2, hlen2'⟩ := parseMany_items (parseLeaf "TEMPO" fuel)
      (coreLeafC "TEMPO") (ind + 1) (optList tempos) fuel
      ('\n' :: (renderLinesC (coreLeafC "TEMPO") (ind + 1) (optList tempos) ++
        (renderLinesC (coreLeafC "POSITION_MARK") (ind + 1) (optList marks) ++
          (indentC ind ++ ("</TRACK>".data ++ r)))))
      (renderLinesC (coreLeafC "POSITION_MARK") (ind + 1) (optList marks) ++
        (indentC ind ++ ("</TRACK>".data ++ r)))
      hinlen
      (fun a hma s hs => parseLeaf_self ((List.all_eq_true.mp htw) a hma) fuel s hs)
      (fun a _ => ⟨_, rfl⟩)
      (tempo_stop fuel (ind + 1) (indentC ind ++ ("</TRACK>".data ++ r))
        ⟨'T' :: 'R' :: 'A' :: 'C' :: 'K' :: '>' :: r, by
          rw [skipWs_indent, skipWs_closeTRACK, dataCloseTRACK]
          rfl⟩)
      (by rw [skipWs_cons_of_ws (show isWsChar '\n' = true by rfl)])
    simp only [heq2]
    obtain ⟨r3, heq3, hskip3, hlen3'⟩ := parseMany_items (parseLeaf "POSITION_MARK" fuel)
      (coreLeafC "POSITION_MARK") (ind + 1) (optList marks) fuel r2
      (indentC ind ++ ("</TRACK>".data ++ r))
      (by
        simp only [List.length_cons] at hinlen hlen2'
        omega)
      (fun a hma s hs => parseLeaf_self ((List.all_eq_true.mp hmw) a hma) fuel s hs)
      (fun a _ => ⟨_, rfl⟩)
      (mark_stop fuel ind r)
      hskip2
    have hcl : skipWs r3 = "</TRACK>".data ++ r := by
      rw [hskip3, skipWs_indent, skipWs_closeTRACK]
    simp only [heq3, hcl, lit_append, listOpt_optList hte, listOpt_optList hme]

theorem dataNODE : "NODE".data = ['N', 'O', 'D', 'E'] := rfl

theorem dataOpenNODE : "<NODE".data = ['<', 'N', 'O', 'D', 'E'] := rfl

theorem dataCloseNODE : "</NODE>".data = ['<', '/', 'N', 'O', 'D', 'E', '>'] := rfl

theorem dataCOLLECTION : "COLLECTION".data =
    ['C', 'O', 'L', 'L', 'E', 'C', 'T', 'I', 'O', 'N'] := rfl

theorem dataOpenCOLLECTION : "<COLLECTION".data =
    ['<', 'C', 'O', 'L', 'L', 'E', 'C', 'T', 'I', 'O', 'N'] := rfl

theorem dataCloseCOLLECTION : "</COLLECTION>".data =
    ['<', '/', 'C', 'O', 'L', 'L', 'E', 'C', 'T', 'I', 'O', 'N', '>'] := rfl

theorem dataPLAYLISTS : "PLAYLISTS".data =
    ['P', 'L', 'A', 'Y', 'L', 'I', 'S', 'T', 'S'] := rfl

theorem dataOpenPLAYLISTS : "<PLAYLISTS".data =
    ['<', 'P', 'L', 'A', 'Y', 'L', 'I', 'S', 'T', 'S'] := rfl

theorem dataClosePLAYLISTS : "</PLAYLISTS>".data =
    ['<', '/', 'P', 'L', 'A', 'Y', 'L', 'I', 'S', 'T', 'S', '>'] := rfl

theorem skipWs_lt_head (x : List Char) (r : List Char) :
    skipWs (('<' :: x) ++ r) = '<' :: (x ++ r) := by
  rw [List.cons_append]
  exact skipWs_cons_of_not (by rfl) _

theorem coreTrackC_head (ind : Nat) (t : Track) : ∃ tl, coreTrackC ind t = '<' :: tl := by
  unfold coreTrackC
  by_cases h : ((optList t.tempos).isEmpty && (optList t.marks).isEmpty) = true
  · rw [if_pos h]
    exact ⟨_, rfl⟩
  · rw [if_neg h]
    exact ⟨_, by simp only [List.cons_append]; rfl⟩

theorem coreNodeC_head {nd : PlNode} (h : wfNode nd = true) :
    ∃ tl, coreNodeC nd = '<' :: tl := by
  cases nd with
  | undef => simp [wfNode] at h
  | node attrs refs =>
    unfold coreNodeC
    by_cases he : (optList refs).isEmpty = true
    · simp only [he, if_true]
      exact ⟨_, rfl⟩
    · simp only [he, Bool.false_eq_true, if_false]
      exact ⟨_, by simp only [List.cons_append]; rfl⟩

theorem parseNodeEntry_core {nd : PlNode} (hw : wfNode nd = true) (fuel : Nat)
    (r : List Char) (hlen : (coreNodeC nd ++ r).length ≤ fuel) :
    parseNodeEntry fuel (coreNodeC nd ++ r) = some (nd, r) := by
  cases nd with
  | undef => simp [wfNode] at hw
  | node attrs refs =>
    simp only [wfNode, Bool.and_eq_true, decide_eq_true_eq] at hw
    obtain ⟨⟨ha, hrw⟩, hre⟩ := hw
    by_cases hcase : (optList refs).isEmpty = true
    · have hrn : refs = none := by
        cases refs with
        | none => rfl
        | some l =>
          cases l with
          | nil => exact absurd rfl hre
          | cons x xs => simp [optList] at hcase
      subst hrn
      have hshape : coreNodeC (PlNode.node attrs none) ++ r =
          "<NODE".data ++ (renderAttrsC attrs ++ '/' :: '>' :: r) := by
        show coreLeafC "NODE" attrs ++ r = _
        simp [coreLeafC, dataNODE, dataOpenNODE, List.append_assoc]
      rw [hshape] at hlen ⊢
      have hlen2 : (renderAttrsC attrs ++ '/' :: '>' :: r).length ≤ fuel := by
        simp only [List.length_append, List.length_cons] at hlen ⊢
        omega
      have hattrs := parseManyAttrs_render attrs fuel '/' ('>' :: r) ha hlen2 (Or.inr rfl)
      unfold parseNodeEntry
      rw [lit_append]
      simp only [hattrs]
      rw [skipWs_cons_of_not (show isWsChar '/' = false by rfl)]
      have hsl : lit ['/', '>'] ('/' :: '>' :: r) = some r := lit_append ['/', '>'] r
      simp only [hsl]
    · have hshape : coreNodeC (PlNode.node attrs refs) ++ r =
          "<NODE".data ++ (renderAttrsC attrs ++ '>' :: '\n' ::
            (renderLinesC (corePairedEmptyC "TRACK") 3 (optList refs) ++
              (indentC 2 ++ ("</NODE>".data ++ r)))) := by
        show (if (optList refs).isEmpty = true then _ else _) ++ r = _
        rw [if_neg hcase]
        simp [dataNODE, dataOpenNODE, List.append_assoc]
      rw [hshape] at hlen ⊢
      have hlen2 : (renderAttrsC attrs ++ '>' :: '\n' ::
          (renderLinesC (corePairedEmptyC "TRACK") 3 (optList refs) ++
            (indentC 2 ++ ("</NODE>".data ++ r)))).length ≤ fuel := by
        simp only [List.length_append, List.length_cons] at hlen ⊢
        omega
      have hattrs := parseManyAttrs_render attrs fuel '>'
        ('\n' :: (renderLinesC (corePairedEmptyC "TRACK") 3 (optList refs) ++
          (indentC 2 ++ ("</NODE>".data ++ r)))) ha hlen2 (Or.inl rfl)
      unfold parseNodeEntry
      rw [lit_append]
      simp only [hattrs]
      rw [skipWs_cons_of_not (show isWsChar '>' = false by rfl)]
      have hnoslash : lit ['/', '>'] ('>' :: '\n' ::
          (renderLinesC (corePairedEmptyC "TRACK") 3 (optList refs) ++
            (indentC 2 ++ ("</NODE>".data ++ r)))) = none := rfl
      have hgt : lit ['>'] ('>' :: '\n' ::
          (renderLinesC (corePairedEmptyC "TRACK") 3 (optList refs) ++
            (indentC 2 ++ ("</NODE>".data ++ r)))) =
          some ('\n' :: (renderLinesC (corePairedEmptyC "TRACK") 3 (optList refs) ++
            (indentC 2 ++ ("</NODE>".data ++ r)))) := lit_append ['>'] _
      simp only [hnoslash, hgt]
      have hinlen : ('\n' :: (renderLinesC (corePairedEmptyC "TRACK") 3 (optList refs) ++
          (indentC 2 ++ ("</NODE>".data ++ r)))).length ≤ fuel := by
        simp only [List.length_append, List.length_cons] at hlen ⊢
        omega
      obtain ⟨r2, heq2, hskip2, _⟩ := parseMany_items (parseLeaf "TRACK" fuel)
        (corePairedEmptyC "TRACK") 3 (optList refs) fuel
        ('\n' :: (renderLinesC (corePairedEmptyC "TRACK") 3 (optList refs) ++
          (indentC 2 ++ ("</NODE>".data ++ r))))
        (indentC 2 ++ ("</NODE>".data ++ r))
        hinlen
        (fun a hma s hs => parseLeaf_paired ((List.all_eq_true.mp hrw) a hma) fuel s hs)
        (fun a _ => ⟨_, rfl⟩)
        (by
          rw [skipWs_indent, dataCloseNODE, skipWs_lt_head]
          exact parseLeaf_ref_stop_close fuel _)
        (by rw [skipWs_cons_of_ws (show isWsChar '\n' = true by rfl)])
      have hcl : skipWs r2 = "</NODE>".data ++ r := by
        rw [hskip2, skipWs_indent, dataCloseNODE, skipWs_lt_head]
        rfl
      simp only [heq2, hcl, lit_append, listOpt_optList hre]

theorem parseCollectionSec_core {c : Collection} (hw : wfCollection c = true) (ind fuel : Nat)
    (r : List Char) (hlen : (coreCollectionC ind c ++ r).length ≤ fuel) :
    parseCollectionSec fuel (coreCollectionC ind c ++ r) = some (c, r) := by
  obtain ⟨attrs, tracks⟩ := c
  simp only [wfCollection, Bool.and_eq_true, decide_eq_true_eq] at hw
  obtain ⟨⟨ha, htw⟩, hte⟩ := hw
  by_cases hcase : (optList tracks).isEmpty = true
  · have htn : tracks = none := by
      cases tracks with
      | none => rfl
      | some l =>
        cases l with
        | nil => exact absurd rfl hte
        | cons x xs => simp [optList] at hcase
    subst htn
    have hshape : coreCollectionC ind ⟨attrs, none⟩ ++ r =
        "<COLLECTION".data ++ (renderAttrsC attrs ++ '/' :: '>' :: r) := by
      show coreLeafC "COLLECTION" attrs ++ r = _
      simp [coreLeafC, dataCOLLECTION, dataOpenCOLLECTION, List.append_assoc]
    rw [hshape] at hlen ⊢
    have hlen2 : (renderAttrsC attrs ++ '/' :: '>' :: r).length ≤ fuel := by
      simp only [List.length_append, List.length_cons] at hlen ⊢
      omega
    have hattrs := parseManyAttrs_render attrs fuel '/' ('>' :: r) ha hlen2 (Or.inr rfl)
    unfold parseCollectionSec
    rw [lit_append]
    simp only [hattrs]
    rw [skipWs_cons_of_not (show isWsChar '/' = false by rfl)]
    have hsl : lit ['/', '>'] ('/' :: '>' :: r) = some r := lit_append ['/', '>'] r
    simp only [hsl]
  · have hshape : coreCollectionC ind ⟨attrs, tracks⟩ ++ r =
        "<COLLECTION".data ++ (renderAttrsC attrs ++ '>' :: '\n' ::
          (renderLinesC (coreTrackC (ind + 1)) (ind + 1) (optList tracks) ++
            (indentC ind ++ ("</COLLECTION>".data ++ r)))) := by
      show (if (optList tracks).isEmpty = true then _ else _) ++ r = _
      rw [if_neg hcase]
      simp [dataCOLLECTION, dataOpenCOLLECTION, List.append_assoc]
    rw [hshape] at hlen ⊢
    have hlen2 : (renderAttrsC attrs ++ '>' :: '\n' ::
        (renderLinesC (coreTrackC (ind + 1)) (ind + 1) (optList tracks) ++
          (indentC ind ++ ("</COLLECTION>".data ++ r)))).length ≤ fuel := by
      simp only [List.length_append, List.length_cons] at hlen ⊢
      omega
    have hattrs := parseManyAttrs_render attrs fuel '>'
      ('\n' :: (renderLinesC (coreTrackC (ind + 1)) (ind + 1) (optList tracks) ++
        (indentC ind ++ ("</COLLECTION>".data ++ r)))) ha hlen2 (Or.inl rfl)
    unfold parseCollectionSec
    rw [lit_append]
    simp only [hattrs]
    rw [skipWs_cons_of_not (show isWsChar '>' = false by rfl)]
    have hnoslash : lit ['/', '>'] ('>' :: '\n' ::
        (renderLinesC (coreTrackC (ind + 1)) (ind + 1) (optList tracks) ++
          (indentC ind ++ ("</COLLECTION>".data ++ r)))) = none := rfl
    have hgt : lit ['>'] ('>' :: '\n' ::
        (renderLinesC (coreTrackC (ind + 1)) (ind + 1) (optList tracks) ++
          (indentC ind ++ ("</COLLECTION>".data ++ r)))) =
        some ('\n' :: (renderLinesC (coreTrackC (ind + 1)) (ind + 1) (optList tracks) ++
          (indentC ind ++ ("</COLLECTION>".data ++ r)))) := lit_append ['>'] _
    simp only [hnoslash, hgt]
    have hinlen : ('\n' :: (renderLinesC (coreTrackC (ind + 1)) (ind + 1) (optList tracks) ++
        (indentC ind ++ ("</COLLECTION>".data ++ r)))).length ≤ fuel := by
      simp only [List.length_append, List.length_cons] at hlen ⊢
      omega
    obtain ⟨r2, heq2, hskip2, _⟩ := parseMany_items (parseTrackEntry fuel)
      (coreTrackC (ind + 1)) (ind + 1) (optList tracks) fuel
      ('\n' :: (renderLinesC (coreTrackC (ind + 1)) (ind + 1) (optList tracks) ++
        (indentC ind ++ ("</COLLECTION>".data ++ r))))
      (indentC ind ++ ("</COLLECTION>".data ++ r))
      hinlen
      (fun a hma s hs => parseTrackEntry_core ((List.all_eq_true.mp htw) a hma) (ind + 1) fuel s hs)
      (fun a _ => coreTrackC_head (ind + 1) a)
      (by
        rw [skipWs_indent, dataCloseCOLLECTION, skipWs_lt_head]
        exact parseTrackEntry_stop_close fuel _)
      (by rw [skipWs_cons_of_ws (show isWsChar '\n' = true by rfl)])
    have hcl : skipWs r2 = "</COLLECTION>".data ++ r := by
      rw [hskip2, skipWs_indent, dataCloseCOLLECTION, skipWs_lt_head]
      rfl
    simp only [heq2, hcl, lit_append, listOpt_optList hte]

theorem parsePlaylistsSec_core {p : Playlists} (hw : wfPlaylists p = true) (fuel : Nat)
    (r : List Char) (hlen : (corePlaylistsC p ++ r).length ≤ fuel) :
    parsePlaylistsSec fuel (corePlaylistsC p ++ r) = some (p, r) := by
  obtain ⟨attrs, nodes⟩ := p
  simp only [wfPlaylists, Bool.and_eq_true, decide_eq_true_eq] at hw
  obtain ⟨⟨ha, hnw⟩, hne⟩ := hw
  by_cases hcase : (optList nodes).isEmpty = true
  · have hnn : nodes = none := by
      cases nodes with
      | none => rfl
      | some l =>
        cases l with
        | nil => exact absurd rfl hne
        | cons x xs => simp [optList] at hcase
    subst hnn
    have hshape : corePlaylistsC ⟨attrs, none⟩ ++ r =
        "<PLAYLISTS".data ++ (renderAttrsC attrs ++ '/' :: '>' :: r) := by
      show coreLeafC "PLAYLISTS" attrs ++ r = _
      simp [coreLeafC, dataPLAYLISTS, dataOpenPLAYLISTS, List.append_assoc]
    rw [hshape] at hlen ⊢
    have hlen2 : (renderAttrsC attrs ++ '/' :: '>' :: r).length ≤ fuel := by
      simp only [List.length_append, List.length_cons] at hlen ⊢
      omega
    have hattrs := parseManyAttrs_render attrs fuel '/' ('>' :: r) ha hlen2 (Or.inr rfl)
    unfold parsePlaylistsSec
    rw [lit_append]
    simp only [hattrs]
    rw [skipWs_cons_of_not (show isWsChar '/' = false by rfl)]
    have hsl : lit ['/', '>'] ('/' :: '>' :: r) = some r := lit_append ['/', '>'] r
    simp only [hsl]
  · have hshape : corePlaylistsC ⟨attrs, nodes⟩ ++ r =
        "<PLAYLISTS".data ++ (renderAttrsC attrs ++ '>' :: '\n' ::
          (renderLinesC coreNodeC 2 (optList nodes) ++
            (indentC 1 ++ ("</PLAYLISTS>".data ++ r)))) := by
      show (if (optList nodes).isEmpty = true then _ else _) ++ r = _
      rw [if_neg hcase]
      simp [dataPLAYLISTS, dataOpenPLAYLISTS, List.append_assoc]
    rw [hshape] at hlen ⊢
    have hlen2 : (renderAttrsC attrs ++ '>' :: '\n' ::
        (renderLinesC coreNodeC 2 (optList nodes) ++
          (indentC 1 ++ ("</PLAYLISTS>".data ++ r)))).length ≤ fuel := by
      simp only [List.length_append, List.length_cons] at hlen ⊢
      omega
    have hattrs := parseManyAttrs_render attrs fuel '>'
      ('\n' :: (renderLinesC coreNodeC 2 (optList nodes) ++
        (indentC 1 ++ ("</PLAYLISTS>".data ++ r)))) ha hlen2 (Or.inl rfl)
    unfold parsePlaylistsSec
    rw [lit_append]
    simp only [hattrs]
    rw [skipWs_cons_of_not (show isWsChar '>' = false by rfl)]
    have hnoslash : lit ['/', '>'] ('>' :: '\n' ::
        (renderLinesC coreNodeC 2 (optList nodes) ++
          (indentC 1 ++ ("</PLAYLISTS>".data ++ r)))) = none := rfl
    have hgt : lit ['>'] ('>' :: '\n' ::
        (renderLinesC coreNodeC 2 (optList nodes) ++
          (indentC 1 ++ ("</PLAYLISTS>".data ++ r)))) =
        some ('\n' :: (renderLinesC coreNodeC 2 (optList nodes) ++
          (indentC 1 ++ ("</PLAYLISTS>".data ++ r)))) := lit_append ['>'] _
    simp only [hnoslash, hgt]
    have hinlen : ('\n' :: (renderLinesC coreNodeC 2 (optList nodes) ++
        (indentC 1 ++ ("</PLAYLISTS>".data ++ r)))).length ≤ fuel := by
      simp only [List.length_append, List.length_cons] at hlen ⊢
      omega
    obtain ⟨r2, heq2, hskip2, _⟩ := parseMany_items (parseNodeEntry fuel)
      coreNodeC 2 (optList nodes) fuel
      ('\n' :: (renderLinesC coreNodeC 2 (optList nodes) ++
        (indentC 1 ++ ("</PLAYLISTS>".data ++ r))))
      (indentC 1 ++ ("</PLAYLISTS>".data ++ r))
      hinlen
      (fun a hma s hs => parseNodeEntry_core ((List.all_eq_true.mp hnw) a hma) fuel s hs)
      (fun a hma => coreNodeC_head ((List.all_eq_true.mp hnw) a hma))
      (by
        rw [skipWs_indent, dataClosePLAYLISTS, skipWs_lt_head]
        exact parseNodeEntry_stop_close fuel _)
      (by rw [skipWs_cons_of_ws (show isWsChar '\n' = true by rfl)])
    have hcl : skipWs r2 = "</PLAYLISTS>".data ++ r := by
      rw [hskip2, skipWs_indent, dataClosePLAYLISTS, skipWs_lt_head]
      rfl
    simp only [heq2, hcl, lit_append, listOpt_optList hne]

theorem dataDJ : "DJ_PLAYLISTS".data =
    ['D', 'J', '_', 'P', 'L', 'A', 'Y', 'L', 'I', 'S', 'T', 'S'] := rfl

theorem dataOpenDJ : "<DJ_PLAYLISTS".data =
    ['<', 'D', 'J', '_', 'P', 'L', 'A', 'Y', 'L', 'I', 'S', 'T', 'S'] := rfl

theorem dataCloseDJ : "</DJ_PLAYLISTS>".data =
    ['<', '/', 'D', 'J', '_', 'P', 'L', 'A', 'Y', 'L', 'I', 'S', 'T', 'S', '>'] := rfl

theorem coreCollectionC_head (ind : Nat) (c : Collection) :
    ∃ x, coreCollectionC ind c = '<' :: 'C' :: x := by
  unfold coreCollectionC
  by_cases h : (optList c.tracks).isEmpty = true
  · simp only [h, if_true]
    exact ⟨_, by simp only [coreLeafC, dataCOLLECTION, List.cons_append]; rfl⟩
  · simp only [h, Bool.false_eq_true, if_false]
    exact ⟨_, by simp only [dataCOLLECTION, List.cons_append]; rfl⟩

theorem corePlaylistsC_head (p : Playlists) :
    ∃ x, corePlaylistsC p = '<' :: 'P' :: x := by
  unfold corePlaylistsC
  by_cases h : (optList p.node).isEmpty = true
  · simp only [h, if_true]
    exact ⟨_, by simp only [coreLeafC, dataPLAYLISTS, List.cons_append]; rfl⟩
  · simp only [h, Bool.false_eq_true, if_false]
    exact ⟨_, by simp only [dataPLAYLISTS, List.cons_append]; rfl⟩

theorem parseDjRoot_render {dj : DjPlaylists}
    (ha : wfAttrs dj.attrs = true)
    (hco : ∀ c, dj.collection = some c → wfCollection c = true)
    (hpo : ∀ p, dj.playlists = some p → wfPlaylists p = true)
    (fuel : Nat) (r : List Char)
    (hlen : (renderDjC dj ++ r).length ≤ fuel) :
    parseDjRoot fuel (renderDjC dj ++ r) = some (dj, '\n' :: r) := by
  obtain ⟨attrs, coll, pl⟩ := dj
  simp only at ha hco hpo
  cases coll with
  | none =>
    cases pl with
    | none =>
      -- empty root renders self-closing
      have hshape : renderDjC ⟨attrs, none, none⟩ ++ r =
          "<DJ_PLAYLISTS".data ++ (renderAttrsC attrs ++ '/' :: '>' :: '\n' :: r) := by
        show (coreLeafC "DJ_PLAYLISTS" attrs ++ ['\n']) ++ r = _
        simp [coreLeafC, dataDJ, dataOpenDJ, List.append_assoc]
      rw [hshape] at hlen ⊢
      have hlen2 : (renderAttrsC attrs ++ '/' :: '>' :: '\n' :: r).length ≤ fuel := by
        simp only [List.length_append, List.length_cons] at hlen ⊢
        omega
      have hattrs := parseManyAttrs_render attrs fuel '/' ('>' :: '\n' :: r) ha hlen2 (Or.inr rfl)
      unfold parseDjRoot
      rw [lit_append]
      simp only [hattrs]
      rw [skipWs_cons_of_not (show isWsChar '/' = false by rfl)]
      have hsl : lit ['/', '>'] ('/' :: '>' :: '\n' :: r) = some ('\n' :: r) :=
        lit_append ['/', '>'] _
      simp only [hsl]
    | some p =>
      have hwp := hpo p rfl
      have hshape : renderDjC ⟨attrs, none, some p⟩ ++ r =
          "<DJ_PLAYLISTS".data ++ (renderAttrsC attrs ++ '>' :: '\n' ::
            (indentC 1 ++ (corePlaylistsC p ++ ('\n' :: ("</DJ_PLAYLISTS>".data ++ '\n' :: r))))) := by
        rw [show renderDjC ⟨attrs, none, some p⟩ =
            '<' :: ("DJ_PLAYLISTS".data ++ renderAttrsC attrs ++ ['>', '\n']) ++
            (([] : List Char) ++ (indentC 1 ++ corePlaylistsC p ++ ['\n'])) ++
            "</DJ_PLAYLISTS>".data ++ ['\n'] from rfl]
        simp [dataDJ, dataOpenDJ, List.append_assoc]
      rw [hshape] at hlen ⊢
      have hlen2 : (renderAttrsC attrs ++ '>' :: '\n' ::
          (indentC 1 ++ (corePlaylistsC p ++ ('\n' :: ("</DJ_PLAYLISTS>".data ++ '\n' :: r))))).length ≤ fuel := by
        simp only [List.length_append, List.length_cons] at hlen ⊢
        omega
      have hattrs := parseManyAttrs_render attrs fuel '>'
        ('\n' :: (indentC 1 ++ (corePlaylistsC p ++ ('\n' :: ("</DJ_PLAYLISTS>".data ++ '\n' :: r)))))
        ha hlen2 (Or.inl rfl)
      unfold parseDjRoot
      rw [lit_append]
      simp only [hattrs]
      rw [skipWs_cons_of_not (show isWsChar '>' = false by rfl)]
      have hnoslash : lit ['/', '>'] ('>' :: '\n' ::
          (indentC 1 ++ (corePlaylistsC p ++ ('\n' :: ("</DJ_PLAYLISTS>".data ++ '\n' :: r))))) = none := rfl
      have hgt : lit ['>'] ('>' :: '\n' ::
          (indentC 1 ++ (corePlaylistsC p ++ ('\n' :: ("</DJ_PLAYLISTS>".data ++ '\n' :: r))))) =
          some ('\n' :: (indentC 1 ++ (corePlaylistsC p ++
            ('\n' :: ("</DJ_PLAYLISTS>".data ++ '\n' :: r))))) := lit_append ['>'] _
      simp only [hnoslash, hgt]
      obtain ⟨x, hx⟩ := corePlaylistsC_head p
      have hskipin : skipWs ('\n' :: (indentC 1 ++ (corePlaylistsC p ++
          ('\n' :: ("</DJ_PLAYLISTS>".data ++ '\n' :: r))))) =
          corePlaylistsC p ++ ('\n' :: ("</DJ_PLAYLISTS>".data ++ '\n' :: r)) := by
        rw [skipWs_cons_of_ws (show isWsChar '\n' = true by rfl), skipWs_indent, hx,
          List.cons_append, skipWs_cons_of_not (by rfl)]
      have hnocoll : parseCollectionSec fuel (skipWs ('\n' :: (indentC 1 ++ (corePlaylistsC p ++
          ('\n' :: ("</DJ_PLAYLISTS>".data ++ '\n' :: r)))))) = none := by
        rw [hskipin, hx, List.cons_append]
        exact parseCollectionSec_stop_pl fuel _
      rw [hnocoll]
      have hplen : (corePlaylistsC p ++ ('\n' :: ("</DJ_PLAYLISTS>".data ++ '\n' :: r))).length ≤ fuel := by
        simp only [List.length_append, List.length_cons, indentC, List.length_replicate] at hlen ⊢
        omega
      have hpl2 := parsePlaylistsSec_core hwp fuel
        ('\n' :: ("</DJ_PLAYLISTS>".data ++ '\n' :: r)) hplen
      rw [hskipin, hpl2]
      have hcl : skipWs ('\n' :: ("</DJ_PLAYLISTS>".data ++ '\n' :: r)) =
          "</DJ_PLAYLISTS>".data ++ '\n' :: r := by
        rw [skipWs_cons_of_ws (show isWsChar '\n' = true by rfl), dataCloseDJ]
        exact skipWs_lt_head _ _
      rw [hcl, lit_append]
  | some c =>
    have hwc := hco c rfl
    cases pl with
    | none =>
      have hshape : renderDjC ⟨attrs, some c, none⟩ ++ r =
          "<DJ_PLAYLISTS".data ++ (renderAttrsC attrs ++ '>' :: '\n' ::
            (indentC 1 ++ (coreCollectionC 1 c ++ ('\n' :: ("</DJ_PLAYLISTS>".data ++ '\n' :: r))))) := by
        rw [show renderDjC ⟨attrs, some c, none⟩ =
            '<' :: ("DJ_PLAYLISTS".data ++ renderAttrsC attrs ++ ['>', '\n']) ++
            ((indentC 1 ++ coreCollectionC 1 c ++ ['\n']) ++ ([] : List Char)) ++
            "</DJ_PLAYLISTS>".data ++ ['\n'] from rfl]
        simp [dataDJ, dataOpenDJ, List.append_assoc]
      rw [hshape] at hlen ⊢
      have hlen2 : (renderAttrsC attrs ++ '>' :: '\n' ::
          (indentC 1 ++ (coreCollectionC 1 c ++ ('\n' :: ("</DJ_PLAYLISTS>".data ++ '\n' :: r))))).length ≤ fuel := by
        simp only [List.length_append, List.length_cons] at hlen ⊢
        omega
      have hattrs := parseManyAttrs_render attrs fuel '>'
        ('\n' :: (indentC 1 ++ (coreCollectionC 1 c ++ ('\n' :: ("</DJ_PLAYLISTS>".data ++ '\n' :: r)))))
        ha hlen2 (Or.inl rfl)
      unfold parseDjRoot
      rw [lit_append]
      simp only [hattrs]
      rw [skipWs_cons_of_not (show isWsChar '>' = false by rfl)]
      have hnoslash : lit ['/', '>'] ('>' :: '\n' ::
          (indentC 1 ++ (coreCollectionC 1 c ++ ('\n' :: ("</DJ_PLAYLISTS>".data ++ '\n' :: r))))) = none := rfl
      have hgt : lit ['>'] ('>' :: '\n' ::
          (indentC 1 ++ (coreCollectionC 1 c ++ ('\n' :: ("</DJ_PLAYLISTS>".data ++ '\n' :: r))))) =
          some ('\n' :: (indentC 1 ++ (coreCollectionC 1 c ++
            ('\n' :: ("</DJ_PLAYLISTS>".data ++ '\n' :: r))))) := lit_append ['>'] _
      simp only [hnoslash, hgt]
      obtain ⟨x, hx⟩ := coreCollectionC_head 1 c
      have hskipin : skipWs ('\n' :: (indentC 1 ++ (coreCollectionC 1 c ++
          ('\n' :: ("</DJ_PLAYLISTS>".data ++ '\n' :: r))))) =
          coreCollectionC 1 c ++ ('\n' :: ("</DJ_PLAYLISTS>".data ++ '\n' :: r)) := by
        rw [skipWs_cons_of_ws (show isWsChar '\n' = true by rfl), skipWs_indent, hx,
          List.cons_append, skipWs_cons_of_not (by rfl)]
      have hclen : (coreCollectionC 1 c ++ ('\n' :: ("</DJ_PLAYLISTS>".data ++ '\n' :: r))).length ≤ fuel := by
        simp only [List.length_append, List.length_cons, indentC, List.length_replicate] at hlen ⊢
        omega
      have hcoll2 := parseCollectionSec_core hwc 1 fuel
        ('\n' :: ("</DJ_PLAYLISTS>".data ++ '\n' :: r)) hclen
      rw [hskipin, hcoll2]
      have hclrest : skipWs ('\n' :: ("</DJ_PLAYLISTS>".data ++ '\n' :: r)) =
          "</DJ_PLAYLISTS>".data ++ '\n' :: r := by
        rw [skipWs_cons_of_ws (show isWsChar '\n' = true by rfl), dataCloseDJ]
        exact skipWs_lt_head _ _
      have hnopl : parsePlaylistsSec fuel (skipWs ('\n' :: ("</DJ_PLAYLISTS>".data ++ '\n' :: r))) = none := by
        rw [hclrest, dataCloseDJ]
        exact parsePlaylistsSec_stop_close fuel _
      rw [hnopl, hclrest, lit_append]
    | some p =>
      have hwp := hpo p rfl
      have hshape : renderDjC ⟨attrs, some c, some p⟩ ++ r =
          "<DJ_PLAYLISTS".data ++ (renderAttrsC attrs ++ '>' :: '\n' ::
            (indentC 1 ++ (coreCollectionC 1 c ++ ('\n' ::
              (indentC 1 ++ (corePlaylistsC p ++ ('\n' ::
                ("</DJ_PLAYLISTS>".data ++ '\n' :: r)))))))) := by
        rw [show renderDjC ⟨attrs, some c, some p⟩ =
            '<' :: ("DJ_PLAYLISTS".data ++ renderAttrsC attrs ++ ['>', '\n']) ++
            ((indentC 1 ++ coreCollectionC 1 c ++ ['\n']) ++
              (indentC 1 ++ corePlaylistsC p ++ ['\n'])) ++
            "</DJ_PLAYLISTS>".data ++ ['\n'] from rfl]
        simp [dataDJ, dataOpenDJ, List.append_assoc]
      rw [hshape] at hlen ⊢
      have hlen2 : (renderAttrsC attrs ++ '>' :: '\n' ::
          (indentC 1 ++ (coreCollectionC 1 c ++ ('\n' ::
            (indentC 1 ++ (corePlaylistsC p ++ ('\n' ::
              ("</DJ_PLAYLISTS>".data ++ '\n' :: r)))))))).length ≤ fuel := by
        simp only [List.length_append, List.length_cons] at hlen ⊢
        omega
      have hattrs := parseManyAttrs_render attrs fuel '>'
        ('\n' :: (indentC 1 ++ (coreCollectionC 1 c ++ ('\n' ::
          (indentC 1 ++ (corePlaylistsC p ++ ('\n' ::
            ("</DJ_PLAYLISTS>".data ++ '\n' :: r))))))))
        ha hlen2 (Or.inl rfl)
      unfold parseDjRoot
      rw [lit_append]
      simp only [hattrs]
      rw [skipWs_cons_of_not (show isWsChar '>' = false by rfl)]
      have hnoslash : lit ['/', '>'] ('>' :: '\n' ::
          (indentC 1 ++ (coreCollectionC 1 c ++ ('\n' ::
            (indentC 1 ++ (corePlaylistsC p ++ ('\n' ::
              ("</DJ_PLAYLISTS>".data ++ '\n' :: r)))))))) = none := rfl
      have hgt : lit ['>'] ('>' :: '\n' ::
          (indentC 1 ++ (coreCollectionC 1 c ++ ('\n' ::
            (indentC 1 ++ (corePlaylistsC p ++ ('\n' ::
              ("</DJ_PLAYLISTS>".data ++ '\n' :: r)))))))) =
          some ('\n' :: (indentC 1 ++ (coreCollectionC 1 c ++ ('\n' ::
            (indentC 1 ++ (corePlaylistsC p ++ ('\n' ::
              ("</DJ_PLAYLISTS>".data ++ '\n' :: r)))))))) := lit_append ['>'] _
      simp only [hnoslash, hgt]
      obtain ⟨x, hx⟩ := coreCollectionC_head 1 c
      have hskipin : skipWs ('\n' :: (indentC 1 ++ (coreCollectionC 1 c ++ ('\n' ::
          (indentC 1 ++ (corePlaylistsC p ++ ('\n' ::
            ("</DJ_PLAYLISTS>".data ++ '\n' :: r)))))))) =
          coreCollectionC 1 c ++ ('\n' :: (indentC 1 ++ (corePlaylistsC p ++ ('\n' ::
            ("</DJ_PLAYLISTS>".data ++ '\n' :: r))))) := by
        rw [skipWs_cons_of_ws (show isWsChar '\n' = true by rfl), skipWs_indent, hx,
          List.cons_append, skipWs_cons_of_not (by rfl)]
      have hclen : (coreCollectionC 1 c ++ ('\n' :: (indentC 1 ++ (corePlaylistsC p ++ ('\n' ::
          ("</DJ_PLAYLISTS>".data ++ '\n' :: r)))))).length ≤ fuel := by
        simp only [List.length_append, List.length_cons, indentC, List.length_replicate] at hlen ⊢
        omega
      have hcoll2 := parseCollectionSec_core hwc 1 fuel
        ('\n' :: (indentC 1 ++ (corePlaylistsC p ++ ('\n' ::
          ("</DJ_PLAYLISTS>".data ++ '\n' :: r))))) hclen
      rw [hskipin, hcoll2]
      obtain ⟨y, hy⟩ := corePlaylistsC_head p
      have hskipin2 : skipWs ('\n' :: (indentC 1 ++ (corePlaylistsC p ++ ('\n' ::
          ("</DJ_PLAYLISTS>".data ++ '\n' :: r))))) =
          corePlaylistsC p ++ ('\n' :: ("</DJ_PLAYLISTS>".data ++ '\n' :: r)) := by
        rw [skipWs_cons_of_ws (show isWsChar '\n' = true by rfl), skipWs_indent, hy,
          List.cons_append, skipWs_cons_of_not (by rfl)]
      have hplen : (corePlaylistsC p ++ ('\n' :: ("</DJ_PLAYLISTS>".data ++ '\n' :: r))).length ≤ fuel := by
        simp only [List.length_append, List.length_cons, indentC, List.length_replicate] at hlen ⊢
        omega
      have hpl2 := parsePlaylistsSec_core hwp fuel
        ('\n' :: ("</DJ_PLAYLISTS>".data ++ '\n' :: r)) hplen
      rw [hskipin2, hpl2]
      have hclrest : skipWs ('\n' :: ("</DJ_PLAYLISTS>".data ++ '\n' :: r)) =
          "</DJ_PLAYLISTS>".data ++ '\n' :: r := by
        rw [skipWs_cons_of_ws (show isWsChar '\n' = true by rfl), dataCloseDJ]
        exact skipWs_lt_head _ _
      rw [hclrest, lit_append]

theorem renderDjC_head (dj : DjPlaylists) : ∃ x, renderDjC dj = '<' :: x := by
  simp only [renderDjC]
  split
  · simp only [coreLeafC, List.cons_append]
    exact ⟨_, rfl⟩
  · simp only [List.cons_append]
    exact ⟨_, rfl⟩

/-- Parsing the canonical rendering of a well-formed document recovers the
document exactly. -/
theorem parseXml_render {d : ParsedData} (hw : wfDoc d = true) :
    parseXml ((renderDocC d).asString) = some d := by
  obtain ⟨decl, dj⟩ := d
  cases dj with
  | none => simp [wfDoc] at hw
  | some djv =>
    simp only [wfDoc, Bool.and_eq_true] at hw
    obtain ⟨hdecl, ⟨ha, hcm⟩, hpm⟩ := hw
    subst hdecl
    have hco : ∀ c, djv.collection = some c → wfCollection c = true := by
      intro c hc; rw [hc] at hcm; exact hcm
    have hpo : ∀ p, djv.playlists = some p → wfPlaylists p = true := by
      intro p hp; rw [hp] at hpm; exact hpm
    have hsdata : ((renderDocC ⟨true, some djv⟩).asString).data =
        "<?xml version=\"1.0\" encoding=\"UTF-8\"?>\n".data ++ renderDjC djv := rfl
    have hslen : ((renderDocC ⟨true, some djv⟩).asString).length =
        ("<?xml version=\"1.0\" encoding=\"UTF-8\"?>\n".data ++ renderDjC djv).length := rfl
    have hskip : skipWs ("<?xml version=\"1.0\" encoding=\"UTF-8\"?>\n".data ++ renderDjC djv) =
        "<?xml version=\"1.0\" encoding=\"UTF-8\"?>\n".data ++ renderDjC djv := by
      rw [show ("<?xml version=\"1.0\" encoding=\"UTF-8\"?>\n").data =
        '<' :: ("?xml version=\"1.0\" encoding=\"UTF-8\"?>\n").data from rfl,
        List.cons_append]
      exact skipWs_cons_of_not (show isWsChar '<' = false from rfl) _
    have hlit : lit "<?xml".data
        ("<?xml version=\"1.0\" encoding=\"UTF-8\"?>\n".data ++ renderDjC djv) =
        some ((" version=\"1.0\" encoding=\"UTF-8\"?>\n").data ++ renderDjC djv) := by
      rw [show ("<?xml version=\"1.0\" encoding=\"UTF-8\"?>\n").data =
        "<?xml".data ++ (" version=\"1.0\" encoding=\"UTF-8\"?>\n").data from rfl,
        List.append_assoc]
      exact lit_append _ _
    have hdeclEnd : skipDeclEnd ((" version=\"1.0\" encoding=\"UTF-8\"?>\n").data ++
        renderDjC djv) = some ('\n' :: renderDjC djv) := rfl
    have hskipdj : skipWs ('\n' :: renderDjC djv) = renderDjC djv := by
      rw [skipWs_cons_of_ws (show isWsChar '\n' = true by rfl)]
      obtain ⟨x, hx⟩ := renderDjC_head djv
      rw [hx]
      exact skipWs_cons_of_not (show isWsChar '<' = false from rfl) _
    have hfuel : (renderDjC djv ++ ([] : List Char)).length ≤
        ((renderDocC ⟨true, some djv⟩).asString).length + 1 := by
      rw [hslen]
      simp only [List.length_append, List.length_nil]
      omega
    have hroot := parseDjRoot_render ha hco hpo
      (((renderDocC ⟨true, some djv⟩).asString).length + 1) [] hfuel
    rw [List.append_nil] at hroot
    simp only [parseXml, hsdata, hskip, hlit, hdeclEnd, hskipdj, hroot]
    rw [show skipWs ['\n'] = ([] : List Char) from rfl]
    rfl

end Autocue

namespace Autocue

/-! ## Claim theorems -/

/-- C1: slot exclusivity fails in the code.  On a track with one hot cue in
slot 0, a configuration generating two hot cues produces two new marks that
both receive slot 1, because the slot scan reads only the marks the track
had before generation started.  The first conjunct evaluates the engine at
the failing input; the second exhibits the two distinct marks sharing the
nonnegative slot number 1. -/
theorem c1_slot_exclusivity_violated :
    (processSingleTrack c1Cfg c1Track).marks = some
      [[("@_Name", "A"), ("@_Type", "0"), ("@_Start", "100.000"), ("@_Num", "0")],
       [("@_Name", "Auto 1"), ("@_Type", "0"), ("@_Start", "102.000"), ("@_Num", "1"),
        ("@_Red", "69"), ("@_Green", "172"), ("@_Blue", "219")],
       [("@_Name", "Auto 2"), ("@_Type", "0"), ("@_Start", "104.000"), ("@_Num", "1"),
        ("@_Red", "69"), ("@_Green", "172"), ("@_Blue", "219")]] ∧
    (((processSingleTrack c1Cfg c1Track).marks.getD []).filter
        (fun m => jsGet m "@_Num" == some "1")).length = 2 := by
  constructor <;> decide

/-- C2: the no-collision invariant fails in the code.  With BPM 600 the bar
lasts 0.4 s; of three candidates after the reference the first is rejected
(0.4 s from the reference) but the second and third are both accepted and
lie 0.4 s apart, because the collision test reads only the marks the track
had before generation started. -/
theorem c2_no_collision_violated :
    (processSingleTrack c2Cfg c2Track).marks = some
      [[("@_Name", "A"), ("@_Type", "0"), ("@_Start", "100.000"), ("@_Num", "0")],
       [("@_Name", "Auto 2"), ("@_Type", "0"), ("@_Start", "100.800"), ("@_Num", "-1")],
       [("@_Name", "Auto 3"), ("@_Type", "0"), ("@_Start", "101.200"), ("@_Num", "-1")]] ∧
    (match parseFloat? "101.200", parseFloat? "100.800" with
     | some a, some b => Frac.ltB (Frac.fabs (a - b)) ⟨1, 2⟩
     | _, _ => false) = true := by
  constructor <;> decide

/-- C4 counterexample: no single run can produce the mark pair the claim
demands, because the configuration carries one cue kind for both
directions.  With kind memory the output holds no mark in slot 1; with kind
hot it holds no memory mark, refuting the claimed combination of one memory
mark at 14.000 and one slot-1 hot mark at 62.000. -/
theorem c4_scenario_counterexample :
    (((processSingleTrack c4CfgMemory c4Track).marks.getD []).all
        (fun m => !(jsGet m "@_Num" == some "1"))) = true ∧
    (((processSingleTrack c4CfgHot c4Track).marks.getD []).all
        (fun m => !(jsGet m "@_Num" == some "-1"))) = true := by
  constructor <;> decide

/-- C4 amended: Scenario A with the single configured cue kind memory.
processXml inserts exactly two marks into the track: "Auto 2" at 14.000 and
"Auto 1" at 62.000, both memory cues (slot -1); the second before-candidate
is clamped to 0 and rejected by the 0.025 s floor. -/
theorem c4_scenario_amended :
    ((processXml c4Doc c4CfgMemory ["1"]).toOption.map
      (fun r => getTracksOpt r.2)) =
    some (some [{ c4Track with marks := some c4ExpectedMarks }]) := by
  decide

/-- C5: the raises-iff claim fails in the code.  A well-formed document
whose collection root is present (truthy) but holds zero track entries
makes processXml throw: iterating the absent TRACK array is a TypeError,
wrapped by the top-level catch.  The first conjunct shows the root passes
the format check; the second evaluates the failure. -/
theorem c5_zero_tracks_raises :
    (c5Doc.dj.map (fun dj => collFalsy dj.collection)) = some false ∧
    processXml c5Doc c5Cfg [] = Except.error errNoTracks := by
  constructor
  · decide
  · rfl

/-- C6 counterexample: a skipped track is not left completely unmodified.
This track has no POSITION_MARK key and an invalid tempo; the engine still
materializes the key as an empty array before deciding to skip, so the
track object after the call differs from the one before it. -/
theorem c6_skip_counterexample :
    trackSkipped c6Cfg c6Track = true ∧
    processSingleTrack c6Cfg c6Track ≠ c6Track ∧
    (processSingleTrack c6Cfg c6Track).marks = some [] := by
  refine ⟨by decide, by decide, by decide⟩

/-- C6 amended: a skipped track (invalid tempo or duration, or an
unresolvable reference point) keeps all its attributes, tempo markers and
existing marks, and no mark is added; the only change is that its
POSITION_MARK key is materialized as a (possibly empty) array. -/
theorem c6_skip_atomicity (cfg : Config) (t : Track)
    (h : trackSkipped cfg t = true) :
    processSingleTrack cfg t = { t with marks := some (optList t.marks) } := by
  unfold trackSkipped at h
  simp only [processSingleTrack]
  cases hb : jsInvalidPos (resolveBpm t) <;>
    cases hd : jsInvalidPos (resolveTotalTime t) <;>
      cases hbr : findReferencePoint (optList t.marks) cfg.beforeReference cfg.specificBeforeCue <;>
        cases har : findReferencePoint (optList t.marks) cfg.afterReference cfg.specificAfterCue <;>
          simp_all

/-- C6 witness: the amended skip-atomicity theorem applied to the concrete
skipped track. -/
theorem c6_skip_atomicity_witness :
    trackSkipped c6Cfg c6Track = true ∧
    processSingleTrack c6Cfg c6Track = { c6Track with marks := some (optList c6Track.marks) } :=
  ⟨by decide, c6_skip_atomicity c6Cfg c6Track (by decide)⟩

/-- C7 counterexample: a track that is not selected is not carried through
the pipeline unchanged.  Its single mark has kind discriminator "1"; the
build pass rewrites it to "0", so the output tree's track differs from the
input track. -/
theorem c7_frame_counterexample :
    ((processXml c7Doc c7Cfg ["999"]).toOption.map (fun r => getTracksOpt r.2)) =
      some (some [{ c7Track with marks := some [[("@_Name", "M"), ("@_Type", "0"), ("@_Start", "10.000"), ("@_Num", "-1")]] }]) ∧
    ((processXml c7Doc c7Cfg ["999"]).toOption.map (fun r => getTracksOpt r.2)) ≠
      some (some [c7Track]) := by
  refine ⟨by decide, by decide⟩

/-- C7 amended: an unselected track whose marks are already canonical
(kind discriminator "0", Name key present, start times stable under the
3-decimal formatting, marks sorted ascending) is carried through the whole
processXml pipeline unchanged, at its original position in the track
list. -/
theorem c7_frame_unselected (d : ParsedData) (cfg : Config) (ids : List String)
    {dj : DjPlaylists} {coll : Collection} {ts : List Track}
    (h1 : d.dj = some dj) (h2 : dj.collection = some coll) (h3 : coll.tracks = some ts)
    (i : Nat) (hi : i < ts.length)
    (hsel : isSelected ids (ts.get ⟨i, hi⟩) = false)
    (hcan : canonicalTrack (ts.get ⟨i, hi⟩) = true) :
    ∃ out d2 ts2, processXml d cfg ids = Except.ok (out, d2) ∧
      getTracksOpt d2 = some ts2 ∧ ts2.length = ts.length ∧
      ∀ hj : i < ts2.length, ts2.get ⟨i, hj⟩ = ts.get ⟨i, hi⟩ := by
  rw [processXml_eq d cfg ids h1 h2 h3]
  refine ⟨_, _, (ts.map (processTrackIfSelected cfg ids)).map completeTrackMarks,
    rfl, rfl, by simp, ?_⟩
  intro hj
  have hi1 : i < (ts.map (processTrackIfSelected cfg ids)).length := by
    simpa using hi
  rw [List.get_map, List.get_map]
  have hpt : processTrackIfSelected cfg ids (ts.get ⟨i, hi⟩) = ts.get ⟨i, hi⟩ := by
    unfold processTrackIfSelected
    rw [hsel]
    rfl
  simp only [List.get_eq_getElem] at hpt hcan ⊢
  rw [hpt, completeTrackMarks_of_canonical hcan]

/-- C7 witness: the amended frame theorem applied to a document with one
canonical unselected track. -/
theorem c7_frame_unselected_witness :
    (isSelected ["999"] cwTrack = false ∧ canonicalTrack cwTrack = true) ∧
    (∃ out d2 ts2, processXml c7WDoc c7Cfg ["999"] = Except.ok (out, d2) ∧
      getTracksOpt d2 = some ts2 ∧ ts2.length = [cwTrack].length ∧
      ∀ hj : 0 < ts2.length, ts2.get ⟨0, hj⟩ = [cwTrack].get ⟨0, by decide⟩) :=
  ⟨⟨by decide, by decide⟩,
    c7_frame_unselected c7WDoc c7Cfg ["999"] rfl rfl rfl 0 (by decide)
      (by decide) (by decide)⟩

/-- C8 counterexample: buildXml is not side-effect-free.  On a tree whose
single mark has start "30.5" the call returns a tree that differs from its
input: the mark now reads "30.500". -/
theorem c8_build_counterexample :
    (buildXml c8Doc).2 ≠ c8Doc ∧
    (getTracksOpt (buildXml c8Doc).2) =
      some [{ attrs := [("@_TrackID", "1")], tempos := none,
              marks := some [[("@_Name", "A"), ("@_Type", "0"), ("@_Start", "30.500"), ("@_Num", "0")]] }] := by
  refine ⟨by decide, by decide⟩

/-- C8 amended: buildXml is a deterministic function of the tree, but it
normalizes every track's marks in place; it returns the tree exactly as
given precisely when every track's marks are already canonical. -/
theorem c8_build_pure (d : ParsedData) (h : canonicalTracks d = true) :
    (buildXml d).2 = d := by
  show processAllPositionMarks d = d
  obtain ⟨decl0, dj0⟩ := d
  cases dj0 with
  | none => rfl
  | some dj =>
    obtain ⟨attrs0, coll0, pl0⟩ := dj
    cases coll0 with
    | none => rfl
    | some coll =>
      obtain ⟨cattrs0, tr0⟩ := coll
      cases tr0 with
      | none => rfl
      | some ts =>
        simp only [canonicalTracks, getTracksOpt, Option.bind_eq_bind, Option.some_bind,
          Option.getD_some, List.all_eq_true] at h
        have : ts.map completeTrackMarks = ts :=
          map_eq_self_of_forall (fun t ht => completeTrackMarks_of_canonical (h t ht))
        simp only [processAllPositionMarks, this]

/-- C8 witness: buildXml leaves a canonical tree untouched. -/
theorem c8_build_pure_witness :
    canonicalTracks c8WDoc = true ∧ (buildXml c8WDoc).2 = c8WDoc :=
  ⟨by decide, c8_build_pure c8WDoc (by decide)⟩

/-- C9: after every successful processXml call exactly one new grouping
node is appended to the PLAYLISTS section (which is created if absent, and
whose prior content is preserved), and its TRACK references are exactly the
selected ids in order, one reference per id, regardless of how many tracks
were skipped. -/
theorem c9_grouping_entry (d : ParsedData) (cfg : Config) (ids : List String)
    {dj : DjPlaylists} {coll : Collection} {ts : List Track}
    (h1 : d.dj = some dj) (h2 : dj.collection = some coll) (h3 : coll.tracks = some ts) :
    ∃ out d2 dj2, processXml d cfg ids = Except.ok (out, d2) ∧ d2.dj = some dj2 ∧
      dj2.playlists = some (addPlaylist dj.playlists ids) ∧
      (addPlaylist dj.playlists ids).node =
        some (baseNodes dj.playlists ++ [autocueNode ids]) ∧
      autocueNode ids =
        PlNode.node [("@_Name", "Autocue Processed Tracks"), ("@_Type", "1"), ("@_KeyType", "0")]
          (some (ids.map fun id => [("@_Key", id)])) := by
  rw [processXml_eq d cfg ids h1 h2 h3]
  exact ⟨_, _, _, rfl, rfl, rfl, addPlaylist_node dj.playlists ids, rfl⟩

/-- C9 witness: the grouping theorem applied to a document with an existing
playlist node and two selected ids, one of which matches no track. -/
theorem c9_grouping_entry_witness :
    ∃ out d2 dj2, processXml c9WDoc c9Cfg ["11", "99"] = Except.ok (out, d2) ∧
      d2.dj = some dj2 ∧
      dj2.playlists = some (addPlaylist (c9WDoc.dj.bind DjPlaylists.playlists) ["11", "99"]) ∧
      (addPlaylist (c9WDoc.dj.bind DjPlaylists.playlists) ["11", "99"]).node =
        some (baseNodes (c9WDoc.dj.bind DjPlaylists.playlists) ++ [autocueNode ["11", "99"]]) ∧
      autocueNode ["11", "99"] =
        PlNode.node [("@_Name", "Autocue Processed Tracks"), ("@_Type", "1"), ("@_KeyType", "0")]
          (some (["11", "99"].map fun id => [("@_Key", id)])) :=
  c9_grouping_entry c9WDoc c9Cfg ["11", "99"] rfl rfl rfl

/-- C10: an id in selectedTrackIds matching no track never makes processXml
fail, mutates no track (the track list of the output equals the one
produced when that id is removed from the selection), and still contributes
its reference to the new grouping entry. -/
theorem c10_unmatched_id (d : ParsedData) (cfg : Config) (ids : List String) (id : String)
    {dj : DjPlaylists} {coll : Collection} {ts : List Track}
    (h1 : d.dj = some dj) (h2 : dj.collection = some coll) (h3 : coll.tracks = some ts)
    (hid : id ∈ ids)
    (hno : ∀ t ∈ ts, jsGet t.attrs "@_TrackID" ≠ some id) :
    ∃ out d2 out2 d3,
      processXml d cfg ids = Except.ok (out, d2) ∧
      processXml d cfg (ids.filter (fun x => x != id)) = Except.ok (out2, d3) ∧
      getTracksOpt d2 = getTracksOpt d3 ∧
      [("@_Key", id)] ∈ (ids.map fun i => [("@_Key", i)]) := by
  rw [processXml_eq d cfg ids h1 h2 h3,
    processXml_eq d cfg (ids.filter (fun x => x != id)) h1 h2 h3]
  have hmaps : ts.map (processTrackIfSelected cfg ids) =
      ts.map (processTrackIfSelected cfg (ids.filter (fun x => x != id))) := by
    apply List.map_congr_left
    intro t ht
    unfold processTrackIfSelected isSelected
    cases hg : jsGet t.attrs "@_TrackID" with
    | none => rfl
    | some v =>
      have hv : v ≠ id := by
        intro e
        exact hno t ht (by rw [hg, e])
      simp only [contains_filter_ne hv]
  refine ⟨_, _, _, _, rfl, rfl, ?_, List.mem_map_of_mem _ hid⟩
  rw [hmaps]
  rfl

/-- C10 witness: the unmatched-id theorem applied to a one-track document
with selection containing the unmatched id "404". -/
theorem c10_unmatched_id_witness :
    ("404" ∈ ["11", "404"] ∧ jsGet cwTrack.attrs "@_TrackID" ≠ some "404") ∧
    (∃ out d2 out2 d3,
      processXml c10WDoc c10Cfg ["11", "404"] = Except.ok (out, d2) ∧
      processXml c10WDoc c10Cfg (["11", "404"].filter (fun x => x != "404")) = Except.ok (out2, d3) ∧
      getTracksOpt d2 = getTracksOpt d3 ∧
      [("@_Key", "404")] ∈ (["11", "404"].map fun i => [("@_Key", i)])) :=
  ⟨⟨by decide, by decide⟩,
    c10_unmatched_id c10WDoc c10Cfg ["11", "404"] "404" rfl rfl rfl (by decide)
      (by
        intro t ht
        simp only [List.mem_singleton] at ht
        subst ht
        decide)⟩

set_option maxRecDepth 100000 in
/-- C3 counterexample: an in-vocabulary document text that parses, on which
the engine applies no cue insertion, yet building the parsed tree does not
return the original text byte for byte — the build step rewrites the mark
start "30.5" to "30.500". -/
theorem c3_roundtrip_counterexample :
    parseXml c3Text = some c3Doc ∧
    (parseXml c3Text).map (fun t => (buildXml t).1) ≠ some c3Text := by
  constructor
  · decide
  · decide

/-- C3 (amended): the round trip is byte-stable exactly on canonical trees.
For a well-formed document that the normalization pass leaves fixed,
parsing the built text recovers the tree, and rebuilding the parsed tree
reproduces the built text byte for byte. -/
theorem c3_roundtrip_canonical (d : ParsedData) (hwf : wfDoc d = true)
    (hcan : processAllPositionMarks d = d) :
    parseXml ((buildXml d).1) = some d ∧
    (parseXml ((buildXml d).1)).map (fun t => (buildXml t).1) = some ((buildXml d).1) := by
  have hb : buildXml d = ((renderDocC d).asString, d) := by
    unfold buildXml
    rw [hcan]
  constructor
  · rw [hb]
    exact parseXml_render hwf
  · show (parseXml ((buildXml d).1)).map (fun t => (buildXml t).1) = some ((buildXml d).1)
    rw [hb]
    show (parseXml ((renderDocC d).asString)).map (fun t => (buildXml t).1) =
      some ((renderDocC d).asString)
    rw [parseXml_render hwf]
    show some ((buildXml d).1) = some ((renderDocC d).asString)
    rw [hb]

/-- C3 witness: the canonical round trip at a concrete document with a
collection, a track, and a playlists tree. -/
theorem c3_roundtrip_canonical_witness :
    wfDoc c3CanDoc = true ∧ processAllPositionMarks c3CanDoc = c3CanDoc ∧
    parseXml ((buildXml c3CanDoc).1) = some c3CanDoc ∧
    (parseXml ((buildXml c3CanDoc).1)).map (fun t => (buildXml t).1) =
      some ((buildXml c3CanDoc).1) := by
  have h := c3_roundtrip_canonical c3CanDoc (by decide) (by decide)
  exact ⟨by decide, by decide, h.1, h.2⟩

end Autocue
